import Mathlib

/-!
AODV ad-hoc network routing simulation (`aodv_network.c`).

A shallow embedding of the simulation and the properties of its route
discovery, neighbour setup, route lookup and mobility.

Modelling decisions.

* `devices[MAX_DEVICES]` is a list of `Device`; a `Device *` is an index into it.
* `neighbors[MAX_NEIGHBORS]` with `num_neighbors`, and `routing_table[MAX_DEVICES]`
  with `num_routes`, are lists holding the first `num_neighbors` / `num_routes`
  slots; the counters are the lengths.
* `char[20]` identifiers are `String` and `strcmp(a, b) == 0` is `a = b`; this is
  the code for ids that fit the array (`is_id_token`), and `read_devices` makes a
  longer id a fault.
* a finite `float` is a rational, so coordinates and ranges are in `ℚ`. The
  `float` operations are not computed: in statements about all inputs the range
  test and the addition of `move` are parameters (`can_communicate_by`, `move`),
  so that they hold for whatever the platform rounds to. `can_communicate` is the
  test without rounding, `0 ≤ r ∧ s ≤ r ^ 2` (see `can_communicate_iff_sqrt`); it
  is the code's test wherever rounding does not cross the threshold, as at every
  concrete input evaluated below, where the distances are exact or far from the
  range.
* every `printf` appends one `Event` to the output of the `World`.
* the recursion of `receive_rreq` is bounded by a fuel argument (the call depth).
  A run is `done`, or `out_of_fuel`, or `fault` when the C code would write
  past the last slot of a routing table or follow a pointer that is not a device.
* the neighbour setup of `main` is a pure function on the device list; the
  capacity `MAX_NEIGHBORS` of `neighbors` is a bound on the list lengths it builds,
  and `setup_neighbors_checked` is the same loop with every write checked against it.
* the construction loop of `main` is `read_devices` on the list of input records;
  a record beyond `MAX_DEVICES` is a fault.
-/

namespace Aodv

/-- Line 6: `#define MAX_DEVICES 10`. -/
def MAX_DEVICES : Nat := 10

/-- Line 7: `#define MAX_NEIGHBORS 10`. -/
def MAX_NEIGHBORS : Nat := 10

/-- One slot of `routing_table` (lines 16-20). -/
structure RouteEntry where
  destination_id : String
  next_hop : String
  hop_count : Int
deriving DecidableEq, Repr

/-- The `Device` struct (lines 9-22). `neighbors` holds indices into the device
array, `routing_table` the first `num_routes` slots. -/
structure Device where
  device_id : String
  x_pos : ℚ
  y_pos : ℚ
  mobility_range : ℚ
  neighbors : List Nat
  routing_table : List RouteEntry
deriving DecidableEq, Repr

/-- Field `num_neighbors`. -/
def Device.num_neighbors (d : Device) : Nat := d.neighbors.length

/-- Field `num_routes`. -/
def Device.num_routes (d : Device) : Nat := d.routing_table.length

/-- One constructor for each `printf` of the program that the model reaches. -/
inductive Event where
  | moved (device_id : String) (x y : ℚ)
  | sending_rreq (source_id destination_id : String)
  | rreq_to_neighbor (source_id neighbor_id : String)
  | received_rreq (device_id sender_id : String)
  | found_route (device_id destination_id : String)
  | sending_rrep (device_id target_id : String)
  | updated_table (device_id destination_id : String) (hops : Int)
  | route_found (device_id next_hop : String) (hops : Int)
  | no_route_to (destination_id : String)
  | source_destination (source_id destination_id : String)
  | no_route_found
  | invalid_ids
deriving DecidableEq, Repr

/-- The program state: the device array and everything printed so far. -/
structure World where
  devices : List Device
  out : List Event
deriving DecidableEq, Repr

/-- Append one printed line. -/
def World.print (w : World) (e : Event) : World :=
  { w with out := w.out ++ [e] }

/-- Outcome of running a piece of the program. -/
inductive Run (α : Type) where
  | done (a : α)
  | fault
  | out_of_fuel
deriving DecidableEq, Repr

/-- Square of `distance_to` (lines 25-27): the argument of `sqrtf`. -/
def distance_to_sq (dev1 dev2 : Device) : ℚ :=
  (dev1.x_pos - dev2.x_pos) ^ 2 + (dev1.y_pos - dev2.y_pos) ^ 2

/-- Lines 30-32: `distance_to(dev1, dev2) <= dev1->mobility_range`, computed
without rounding. This is `can_communicate_by exact_in_range`; the `float` test
of the code can differ from it where rounding crosses the threshold. -/
def can_communicate (dev1 dev2 : Device) : Bool :=
  decide (0 ≤ dev1.mobility_range ∧ distance_to_sq dev1 dev2 ≤ dev1.mobility_range ^ 2)

/-- Lines 35-39: `move`. `fadd` is the `float` addition of `+=`, taken as a
parameter: the sum as the platform rounds it. -/
def move (fadd : ℚ → ℚ → ℚ) (w : World) (device : Nat) (dx dy : ℚ) : Run World :=
  match w.devices[device]? with
  | none => .fault
  | some d =>
    let d1 := { d with x_pos := fadd d.x_pos dx }
    let d2 := { d1 with y_pos := fadd d1.y_pos dy }
    .done { devices := w.devices.set device d2,
            out := w.out ++ [.moved d2.device_id d2.x_pos d2.y_pos] }

/-- Lines 76-82: `update_routing_table`. The write to slot `num_routes` is a
fault when the table is full. -/
def update_routing_table (w : World) (device : Nat) (destination_device_id : String) :
    Run World :=
  match w.devices[device]? with
  | none => .fault
  | some d =>
    if d.num_routes < MAX_DEVICES then
      let entry : RouteEntry :=
        { destination_id := destination_device_id, next_hop := d.device_id, hop_count := 1 }
      .done { devices := w.devices.set device { d with routing_table := d.routing_table ++ [entry] },
              out := w.out ++ [.updated_table d.device_id destination_device_id 1] }
    else .fault

/-- Lines 70-73: `send_rrep`. -/
def send_rrep (w : World) (device source_device : Nat) : Run World :=
  match w.devices[device]?, w.devices[source_device]? with
  | some d, some s =>
    update_routing_table (w.print (.sending_rrep d.device_id s.device_id)) source_device d.device_id
  | _, _ => .fault

/-- Lines 60-65: the forwarding loop of `receive_rreq`, over the remaining
neighbour slots; `recv` is the recursive call. -/
def rreq_forward (recv : World → Nat → Nat → Nat → Run World)
    (device source_device destination_device : Nat) : List Nat → World → Run World
  | [], w => .done w
  | neighbor :: rest, w =>
    match w.devices[device]?, w.devices[neighbor]?, w.devices[source_device]? with
    | some d, some n, some s =>
      if n.device_id ≠ s.device_id ∧ can_communicate d n = true then
        match recv w neighbor device destination_device with
        | .done w1 => rreq_forward recv device source_device destination_device rest w1
        | r => r
      else rreq_forward recv device source_device destination_device rest w
    | _, _, _ => .fault

/-- Lines 54-67: `receive_rreq`. Each call uses one unit of fuel. -/
def receive_rreq : Nat → World → Nat → Nat → Nat → Run World
  | 0, _, _, _, _ => .out_of_fuel
  | fuel + 1, w, device, source_device, destination_device =>
    match w.devices[device]?, w.devices[source_device]?, w.devices[destination_device]? with
    | some d, some s, some t =>
      let w1 := w.print (.received_rreq d.device_id s.device_id)
      if d.device_id = t.device_id then
        send_rrep (w1.print (.found_route d.device_id t.device_id)) device source_device
      else
        rreq_forward (receive_rreq fuel) device source_device destination_device d.neighbors w1
    | _, _, _ => .fault

/-- Lines 44-50: the loop of `send_rreq` over the remaining neighbour slots. -/
def send_rreq_loop (fuel : Nat) (source_device destination_device : Nat) :
    List Nat → World → Run World
  | [], w => .done w
  | neighbor :: rest, w =>
    match w.devices[source_device]?, w.devices[neighbor]? with
    | some s, some n =>
      if can_communicate s n = true then
        match receive_rreq fuel (w.print (.rreq_to_neighbor s.device_id n.device_id))
            neighbor source_device destination_device with
        | .done w1 => send_rreq_loop fuel source_device destination_device rest w1
        | r => r
      else send_rreq_loop fuel source_device destination_device rest w
    | _, _ => .fault

/-- Lines 42-51: `send_rreq`. -/
def send_rreq (fuel : Nat) (w : World) (source_device destination_device : Nat) : Run World :=
  match w.devices[source_device]?, w.devices[destination_device]? with
  | some s, some t =>
    send_rreq_loop fuel source_device destination_device s.neighbors
      (w.print (.sending_rreq s.device_id t.device_id))
  | _, _ => .fault

/-- Lines 86-91: the scan of `get_route` over the remaining table slots; the
result is the slot at which the loop returns 1, if any. -/
def get_route_scan (destination_id : String) : List RouteEntry → Option RouteEntry
  | [] => none
  | e :: rest => if e.destination_id = destination_id then some e else get_route_scan destination_id rest

/-- Lines 85-94: `get_route`, returning the new state and the C return value. -/
def get_route (w : World) (device destination_device : Nat) : Run (World × Int) :=
  match w.devices[device]?, w.devices[destination_device]? with
  | some d, some t =>
    match get_route_scan t.device_id d.routing_table with
    | some e => .done (w.print (.route_found d.device_id e.next_hop e.hop_count), 1)
    | none => .done (w.print (.no_route_to t.device_id), 0)
  | _, _ => .fault

/-- Lines 97-106: `create_device`, for an id that fits `char[20]` with its
terminator (fewer than 20 bytes); `strcpy` of a longer id writes out of bounds,
which `read_devices` reports as a fault before the call. -/
def create_device (device_id : String) (x_pos y_pos mobility_range : ℚ) : Device :=
  { device_id := device_id, x_pos := x_pos, y_pos := y_pos, mobility_range := mobility_range,
    neighbors := [], routing_table := [] }

/-- Lines 134-136: the body of the inner loop of the neighbour setup. -/
def setup_step (i j : Nat) (devices : List Device) : List Device :=
  match devices[i]?, devices[j]? with
  | some di, some dj =>
    if i ≠ j ∧ can_communicate di dj = true then
      devices.set i { di with neighbors := di.neighbors ++ [j] }
    else devices
  | _, _ => devices

/-- Lines 133-137: the inner loop `for j` for a fixed `i`. -/
def setup_row (num_devices i : Nat) (devices : List Device) : List Device :=
  (List.range num_devices).foldl (fun ds j => setup_step i j ds) devices

/-- Lines 132-138: the neighbour setup of `main`. -/
def setup_neighbors (devices : List Device) : List Device :=
  (List.range devices.length).foldl (fun ds i => setup_row devices.length i ds) devices

/-- Lines 147-155: the search for the two devices; a later match replaces an
earlier one. -/
def find_devices (source_device_id destination_device_id : String) :
    List Device → Nat → Option Nat × Option Nat → Option Nat × Option Nat
  | [], _, found => found
  | d :: rest, i, found =>
    let found1 := if d.device_id = source_device_id then (some i, found.2) else found
    let found2 := if d.device_id = destination_device_id then (found1.1, some i) else found1
    find_devices source_device_id destination_device_id rest (i + 1) found2

/-- Lines 163-166: the check of `main` after discovery. -/
def check_route (w : World) (source_device destination_device : Nat) : Run World :=
  match get_route w source_device destination_device with
  | .done (w1, r) => if r = 0 then .done (w1.print .no_route_found) else .done w1
  | .fault => .fault
  | .out_of_fuel => .out_of_fuel

/-- Continue with `g` from the state that a finished run left. -/
def Run.bind {α β : Type} (r : Run α) (g : α → Run β) : Run β :=
  match r with
  | .done a => g a
  | .fault => .fault
  | .out_of_fuel => .out_of_fuel

/-- Lines 147-169: the query step of `main`. -/
def main_query (fuel : Nat) (w : World) (source_device_id destination_device_id : String) :
    Run World :=
  match find_devices source_device_id destination_device_id w.devices 0 (none, none) with
  | (some source_device, some destination_device) =>
    match w.devices[source_device]?, w.devices[destination_device]? with
    | some s, some t =>
      (send_rreq fuel (w.print (.source_destination s.device_id t.device_id))
          source_device destination_device).bind
        (fun w1 => check_route w1 source_device destination_device)
    | _, _ => .fault
  | _ => .done (w.print .invalid_ids)

/-- The routing tables of all devices after a run, when it finished. -/
def Run.tables : Run World → Option (List (List RouteEntry))
  | .done w => some (w.devices.map Device.routing_table)
  | _ => none

/-- Everything printed by a run, when it finished. -/
def Run.output : Run World → Option (List Event)
  | .done w => some w.out
  | _ => none

/-- The world that `main` builds from the devices read from the input. -/
def initial_world (devices : List Device) : World :=
  { devices := setup_neighbors devices, out := [] }

/-- A linear chain A - B - C - D: ten apart, range ten. -/
def chain4 : List Device :=
  [create_device "A" 0 0 10, create_device "B" 10 0 10,
   create_device "C" 20 0 10, create_device "D" 30 0 10]

/-- The scenario of the specification: A(0,0), B(5,0), C(10,0), D(20,0), range 10. -/
def scenario : List Device :=
  [create_device "A" 0 0 10, create_device "B" 5 0 10,
   create_device "C" 10 0 10, create_device "D" 20 0 10]

/-- The devices of `scenario` with the neighbour lists that the setup loop builds. -/
def scenario_linked : List Device :=
  [{ create_device "A" 0 0 10 with neighbors := [1, 2] },
   { create_device "B" 5 0 10 with neighbors := [0, 2] },
   { create_device "C" 10 0 10 with neighbors := [0, 1, 3] },
   { create_device "D" 20 0 10 with neighbors := [2] }]

/-- Three devices mutually in range and a fourth, D, far from all of them. -/
def triangle : List Device :=
  [create_device "A" 0 0 10, create_device "B" 1 0 10,
   create_device "C" 0 1 10, create_device "D" 100 100 10]

/-- The devices of `triangle` with the neighbour lists that the setup loop builds. -/
def triangle_linked : List Device :=
  [{ create_device "A" 0 0 10 with neighbors := [1, 2] },
   { create_device "B" 1 0 10 with neighbors := [0, 2] },
   { create_device "C" 0 1 10 with neighbors := [0, 1] },
   create_device "D" 100 100 10]

/-- A source S and a destination D that is its direct neighbour. -/
def pair : List Device :=
  [create_device "S" 0 0 10, create_device "D" 1 0 10]

/-- Two devices with different ranges: A reaches B, B does not reach A. -/
def lopsided : List Device :=
  [create_device "A" 0 0 10, create_device "B" 5 0 1]

/-- Number of the slots of a routing table that hold a given destination. -/
def entries_for (destination_id : String) (table : List RouteEntry) : Nat :=
  (table.filter (fun e => decide (e.destination_id = destination_id))).length

/-- The test of line 134 on two slots of a device array. -/
def in_range_of (devices : List Device) (i j : Nat) : Bool :=
  match devices[i]?, devices[j]? with
  | some di, some dj => decide (i ≠ j) && can_communicate di dj
  | _, _ => false

/-- A device with more neighbour slots filled. -/
def add_neighbors (l : List Nat) (d : Device) : Device :=
  { d with neighbors := d.neighbors ++ l }

/-- The device array `ds` is `ds0` with the slots `f k` added to the neighbour
list of each device `k`. -/
def Linked (ds0 : List Device) (f : Nat → List Nat) (ds : List Device) : Prop :=
  ∀ k, ds[k]? = (ds0[k]?).map (add_neighbors (f k))

/-- A device S whose table already holds an entry for D. -/
def holder : World :=
  { devices := [{ create_device "S" 0 0 10 with
      routing_table := [{ destination_id := "D", next_hop := "S", hop_count := 1 }] }],
    out := [] }

/-- The device array after a run, when it finished. -/
def Run.devices : Run World → Option (List Device)
  | .done w => some w.devices
  | _ => none

/-- One record of the input of `main` (lines 118-127): id, position, range. -/
structure DeviceInput where
  device_id : String
  x_pos : ℚ
  y_pos : ℚ
  mobility_range : ℚ
deriving DecidableEq, Repr

/-- An id as `scanf("%s", device_id)` of line 121 reads it into `char[20]`: a
token of 1 to 19 bytes without white space and without the terminator byte. On
such ids `strcmp(a, b) == 0` is equality of the strings. -/
def is_id_token (s : String) : Bool :=
  decide (0 < s.utf8ByteSize) && decide (s.utf8ByteSize < 20) &&
    s.data.all (fun c => decide (c.toNat ∉ [0, 9, 10, 11, 12, 13, 32]))

/-- Lines 117-129: the construction loop of `main` over the remaining input
records; `devices` holds the slots written so far. The write to `devices[i]` is
a fault when the array is full, and so is an id of 20 bytes or more, which does
not fit `char device_id[20]` with its terminator. -/
def read_devices : List DeviceInput → List Device → Run (List Device)
  | [], devices => .done devices
  | r :: rest, devices =>
    if devices.length < MAX_DEVICES ∧ r.device_id.utf8ByteSize < 20 then
      read_devices rest
        (devices ++ [create_device r.device_id r.x_pos r.y_pos r.mobility_range])
    else .fault

/-- A device with more routing-table slots filled. -/
def add_routes (l : List RouteEntry) (d : Device) : Device :=
  { d with routing_table := d.routing_table ++ l }

/-- The device array `ds` is `ds0` with the entries `f k` appended to the
routing table of each device `k`. -/
def Tabled (ds0 : List Device) (f : Nat → List RouteEntry) (ds : List Device) : Prop :=
  ∀ k : Nat, ds[k]? = (ds0[k]?).map (add_routes (f k))

/-- The entry `e` is what a reply writes at device `k` for the destination `t`,
for a request that `k` handed to a device `c` carrying the id of `t`; `E k c`
says that `k` may hand a request to `c`. -/
def Wrote (ds0 : List Device) (t : Nat) (E : Nat → Nat → Prop) (k : Nat) (e : RouteEntry) :
    Prop :=
  ∃ (c : Nat) (C T K : Device), ds0[c]? = some C ∧ ds0[t]? = some T ∧ ds0[k]? = some K ∧
    C.device_id = T.device_id ∧ E k c ∧
    e = { destination_id := T.device_id, next_hop := K.device_id, hop_count := 1 }

/-- State of a flood for destination `t` that started from the devices `ds0`:
only routing tables have grown, and only by entries that replies wrote. -/
def Flooded (ds0 : List Device) (t : Nat) (E : Nat → Nat → Prop) (f : Nat → List RouteEntry)
    (ds : List Device) : Prop :=
  Tabled ds0 f ds ∧ ∀ (k : Nat) (e : RouteEntry), e ∈ f k → Wrote ds0 t E k e

/-- The test of line 62 on a neighbour slot, in a given device array. -/
def forward_test (devices : List Device) (device source_device neighbor : Nat) : Bool :=
  match devices[device]?, devices[neighbor]?, devices[source_device]? with
  | some d, some n, some s => decide (n.device_id ≠ s.device_id) && can_communicate d n
  | _, _, _ => false

/-- In the words of the specification: invoke `receive_rreq(n, current, dest)`
for the devices `n` of a list, in the order of the list. -/
def forward_calls (fuel : Nat) (device destination_device : Nat) : List Nat → World → Run World
  | [], w => .done w
  | n :: rest, w =>
    (receive_rreq fuel w n device destination_device).bind
      (forward_calls fuel device destination_device rest)

/-- The neighbour list of device `i` in a chain of `n` devices: the chain
neighbours `i - 1` and `i + 1` that exist. -/
def chain_neighbors (n i : Nat) : List Nat :=
  (if i = 0 then [] else [i - 1]) ++ (if i + 1 < n then [i + 1] else [])

/-- Lines 134-136 with the write `neighbors[num_neighbors++]` checked: writing
at an index that is not below `MAX_NEIGHBORS` is a fault. -/
def setup_step_checked (i j : Nat) (devices : List Device) : Run (List Device) :=
  match devices[i]?, devices[j]? with
  | some di, some dj =>
    if i ≠ j ∧ can_communicate di dj = true then
      if di.num_neighbors < MAX_NEIGHBORS then
        .done (devices.set i { di with neighbors := di.neighbors ++ [j] })
      else .fault
    else .done devices
  | _, _ => .done devices

/-- Lines 133-137 with checked writes. -/
def setup_row_checked (num_devices i : Nat) (devices : List Device) : Run (List Device) :=
  (List.range num_devices).foldl (fun r j => r.bind (setup_step_checked i j)) (.done devices)

/-- Lines 132-138 with checked writes. -/
def setup_neighbors_checked (devices : List Device) : Run (List Device) :=
  (List.range devices.length).foldl
    (fun r i => r.bind (setup_row_checked devices.length i)) (.done devices)

/-- Lines 30-32 with the `float` computation
`sqrtf(pow(x1 - x2, 2) + pow(y1 - y2, 2)) <= r1` taken as a parameter
`in_range x1 y1 r1 x2 y2`, whatever the platform rounds it to: the test reads the
two positions and the range of the first device only. -/
def can_communicate_by (in_range : ℚ → ℚ → ℚ → ℚ → ℚ → Bool) (dev1 dev2 : Device) : Bool :=
  in_range dev1.x_pos dev1.y_pos dev1.mobility_range dev2.x_pos dev2.y_pos

/-- The range test computed without rounding: the one of `can_communicate`. -/
def exact_in_range (x1 y1 r1 x2 y2 : ℚ) : Bool :=
  decide (0 ≤ r1 ∧ (x1 - x2) ^ 2 + (y1 - y2) ^ 2 ≤ r1 ^ 2)

/-- The `float` addition when the sum is itself a `float`: nothing is rounded. -/
def exact_add (a b : ℚ) : ℚ := a + b

/-- Lines 134-136 with the range test as a parameter. -/
def setup_step_by (in_range : ℚ → ℚ → ℚ → ℚ → ℚ → Bool) (i j : Nat) (devices : List Device) :
    List Device :=
  match devices[i]?, devices[j]? with
  | some di, some dj =>
    if i ≠ j ∧ can_communicate_by in_range di dj = true then
      devices.set i { di with neighbors := di.neighbors ++ [j] }
    else devices
  | _, _ => devices

/-- Lines 133-137 with the range test as a parameter. -/
def setup_row_by (in_range : ℚ → ℚ → ℚ → ℚ → ℚ → Bool) (num_devices i : Nat)
    (devices : List Device) : List Device :=
  (List.range num_devices).foldl (fun ds j => setup_step_by in_range i j ds) devices

/-- Lines 132-138, the neighbour setup of `main`, with the range test as a
parameter. -/
def setup_neighbors_by (in_range : ℚ → ℚ → ℚ → ℚ → ℚ → Bool) (devices : List Device) :
    List Device :=
  (List.range devices.length).foldl
    (fun ds i => setup_row_by in_range devices.length i ds) devices

/-- The test of line 134 on two slots of a device array, with the range test as
a parameter. -/
def in_range_of_by (in_range : ℚ → ℚ → ℚ → ℚ → ℚ → Bool) (devices : List Device)
    (i j : Nat) : Bool :=
  match devices[i]?, devices[j]? with
  | some di, some dj => decide (i ≠ j) && can_communicate_by in_range di dj
  | _, _ => false

/-! ## Fuel: a run that finishes does not depend on the fuel -/

theorem rreq_forward_congr (recv1 recv2 : World → Nat → Nat → Nat → Run World)
    (h : ∀ w a b c, recv1 w a b c ≠ .out_of_fuel → recv2 w a b c = recv1 w a b c)
    (device source_device destination_device : Nat) (l : List Nat) :
    ∀ w, rreq_forward recv1 device source_device destination_device l w ≠ .out_of_fuel →
      rreq_forward recv2 device source_device destination_device l w =
        rreq_forward recv1 device source_device destination_device l w := by
  induction l with
  | nil => intro w _; rfl
  | cons nb rest ih =>
    intro w
    unfold rreq_forward
    split
    · rename_i d n s _ _ _
      by_cases hc : n.device_id ≠ s.device_id ∧ can_communicate d n = true
      · simp only [if_pos hc]
        cases h1 : recv1 w nb device destination_device with
        | done w1 =>
          rw [h w nb device destination_device (by rw [h1]; simp), h1]
          exact ih w1
        | fault =>
          rw [h w nb device destination_device (by rw [h1]; simp), h1]
          intro _; rfl
        | out_of_fuel => intro hne; exact absurd rfl hne
      · simp only [if_neg hc]
        exact ih w
    · intro _; rfl

theorem receive_rreq_fuel_succ (fuel : Nat) :
    ∀ w device source_device destination_device,
      receive_rreq fuel w device source_device destination_device ≠ .out_of_fuel →
      receive_rreq (fuel + 1) w device source_device destination_device =
        receive_rreq fuel w device source_device destination_device := by
  induction fuel with
  | zero => intro w a b c h; exact absurd rfl h
  | succ n ih =>
    intro w a b c
    rw [receive_rreq, receive_rreq]
    split
    · rename_i d s t _ _ _
      by_cases hc : d.device_id = t.device_id
      · simp only [if_pos hc]
        intro _; trivial
      · simp only [if_neg hc]
        exact rreq_forward_congr (receive_rreq n) (receive_rreq (n + 1)) ih _ _ _ _ _
    · intro _; rfl

theorem receive_rreq_fuel_mono (fuel k : Nat) (w : World) (device source_device destination_device : Nat)
    (h : receive_rreq fuel w device source_device destination_device ≠ .out_of_fuel) :
    receive_rreq (fuel + k) w device source_device destination_device =
      receive_rreq fuel w device source_device destination_device := by
  induction k with
  | zero => rfl
  | succ k ih =>
    rw [← Nat.add_assoc, receive_rreq_fuel_succ (fuel + k) w _ _ _ (by rw [ih]; exact h), ih]

theorem send_rreq_loop_fuel_mono (fuel k : Nat) (source_device destination_device : Nat)
    (l : List Nat) :
    ∀ w, send_rreq_loop fuel source_device destination_device l w ≠ .out_of_fuel →
      send_rreq_loop (fuel + k) source_device destination_device l w =
        send_rreq_loop fuel source_device destination_device l w := by
  induction l with
  | nil => intro w _; rfl
  | cons nb rest ih =>
    intro w
    unfold send_rreq_loop
    split
    · rename_i s n _ _
      by_cases hc : can_communicate s n = true
      · simp only [if_pos hc]
        cases h1 : receive_rreq fuel (w.print (.rreq_to_neighbor s.device_id n.device_id))
            nb source_device destination_device with
        | done w1 =>
          rw [receive_rreq_fuel_mono fuel k _ _ _ _ (by rw [h1]; simp), h1]
          exact ih w1
        | fault =>
          rw [receive_rreq_fuel_mono fuel k _ _ _ _ (by rw [h1]; simp), h1]
          intro _; rfl
        | out_of_fuel => intro hne; exact absurd rfl hne
      · simp only [if_neg hc]
        exact ih w
    · intro _; rfl

theorem send_rreq_fuel_mono (fuel k : Nat) (w : World) (source_device destination_device : Nat)
    (h : send_rreq fuel w source_device destination_device ≠ .out_of_fuel) :
    send_rreq (fuel + k) w source_device destination_device =
      send_rreq fuel w source_device destination_device := by
  revert h
  unfold send_rreq
  split
  · exact send_rreq_loop_fuel_mono fuel k _ _ _ _
  · intro _; rfl

/-! ## The range test against the real square root -/

/-- The rational test of `can_communicate` is the comparison of the real
Euclidean distance with the range of the first device. -/
theorem can_communicate_iff_sqrt (dev1 dev2 : Device) :
    can_communicate dev1 dev2 = true ↔
      Real.sqrt (((dev1.x_pos : ℝ) - dev2.x_pos) ^ 2 + ((dev1.y_pos : ℝ) - dev2.y_pos) ^ 2)
        ≤ (dev1.mobility_range : ℝ) := by
  unfold can_communicate distance_to_sq
  rw [decide_eq_true_iff, Real.sqrt_le_iff]
  constructor
  · rintro ⟨h0, h1⟩
    refine ⟨by exact_mod_cast h0, ?_⟩
    exact_mod_cast h1
  · rintro ⟨h0, h1⟩
    refine ⟨by exact_mod_cast h0, ?_⟩
    exact_mod_cast h1

/-! ## Discovery on concrete topologies -/

theorem setup_chain4 :
    (setup_neighbors chain4).map Device.neighbors = [[1], [0, 2], [1, 3], [2]] := by
  decide!

theorem chain4_fuel3 :
    (send_rreq 3 (initial_world chain4) 0 3).tables
      = some [[], [], [{ destination_id := "D", next_hop := "C", hop_count := 1 }], []] := by
  decide!

theorem chain4_query :
    (main_query 3 (initial_world chain4) "A" "D").output
      = some [.source_destination "A" "D", .sending_rreq "A" "D", .rreq_to_neighbor "A" "B",
          .received_rreq "B" "A", .received_rreq "C" "B", .received_rreq "D" "C",
          .found_route "D" "D", .sending_rrep "D" "C", .updated_table "C" "D" 1,
          .no_route_to "D", .no_route_found] := by
  decide!

/-- C1 (the code on the failing input): on the chain A - B - C - D, whose
neighbour lists are A:[B], B:[A,C], C:[B,D], D:[C], discovery from A to D
finishes with any fuel of at least 3 and leaves the tables of A, B and D empty;
the only entry is written at C, with hop count 1. No entry with hop count 3
appears at A and none with hop count 2 at B: the query step of `main` prints
that D found the route and then that there is no route. -/
theorem chain_discovery_tables :
    (initial_world chain4).devices.map Device.neighbors = [[1], [0, 2], [1, 3], [2]] ∧
    (∀ k, (send_rreq (3 + k) (initial_world chain4) 0 3).tables
      = some [[], [], [{ destination_id := "D", next_hop := "C", hop_count := 1 }], []]) ∧
    (main_query 3 (initial_world chain4) "A" "D").output
      = some [.source_destination "A" "D", .sending_rreq "A" "D", .rreq_to_neighbor "A" "B",
          .received_rreq "B" "A", .received_rreq "C" "B", .received_rreq "D" "C",
          .found_route "D" "D", .sending_rrep "D" "C", .updated_table "C" "D" 1,
          .no_route_to "D", .no_route_found] := by
  refine ⟨setup_chain4, fun k => ?_, chain4_query⟩
  have h3 := chain4_fuel3
  rw [send_rreq_fuel_mono 3 k _ _ _ ?_]
  · exact h3
  · intro h
    rw [h] at h3
    exact absurd h3 (by simp [Run.tables])

theorem setup_scenario : setup_neighbors scenario = scenario_linked := by
  decide!

/-- On the scenario topology the calls `receive_rreq(B, A, D)`, `receive_rreq(C, B, D)`
and `receive_rreq(A, C, D)` call one another in a cycle: none returns within any
call depth. -/
theorem scenario_cycle (n : Nat) : ∀ out,
    receive_rreq n ⟨scenario_linked, out⟩ 1 0 3 = .out_of_fuel ∧
    receive_rreq n ⟨scenario_linked, out⟩ 2 1 3 = .out_of_fuel ∧
    receive_rreq n ⟨scenario_linked, out⟩ 0 2 3 = .out_of_fuel := by
  have hBD : ¬ "B" = "D" := by decide
  have hCD : ¬ "C" = "D" := by decide
  have hAD : ¬ "A" = "D" := by decide
  have hCA : ¬ "C" = "A" := by decide
  have hAB : ¬ "A" = "B" := by decide
  have hBC : ¬ "B" = "C" := by decide
  induction n with
  | zero => intro out; simp [receive_rreq]
  | succ n ih =>
    intro out
    refine ⟨?_, ?_, ?_⟩
    · have h := (ih (out ++ [Event.received_rreq "B" "A"])).2.1
      simp only [scenario_linked, create_device] at h
      norm_num [receive_rreq, rreq_forward, scenario_linked, create_device, can_communicate,
        distance_to_sq, World.print, hBD, hCA, h]
    · have h := (ih (out ++ [Event.received_rreq "C" "B"])).2.2
      simp only [scenario_linked, create_device] at h
      norm_num [receive_rreq, rreq_forward, scenario_linked, create_device, can_communicate,
        distance_to_sq, World.print, hCD, hAB, h]
    · have h := (ih (out ++ [Event.received_rreq "A" "C"])).1
      simp only [scenario_linked, create_device] at h
      norm_num [receive_rreq, rreq_forward, scenario_linked, create_device, can_communicate,
        distance_to_sq, World.print, hAD, hBC, h]

/-- C2 (the code on the scenario of the specification): the setup loop gives the
neighbour lists A:[B,C], B:[A,C], C:[A,B,D], D:[C], and `send_rreq(A, D)` does not
return within any call depth: the request goes round A, B, C for ever, so no
`get_route(A, D)` is ever reached. -/
theorem scenario_discovery_diverges :
    (initial_world scenario).devices.map Device.neighbors = [[1, 2], [0, 2], [0, 1, 3], [2]] ∧
    ∀ fuel, send_rreq fuel (initial_world scenario) 0 3 = .out_of_fuel := by
  refine ⟨by rw [initial_world, setup_scenario]; rfl, fun fuel => ?_⟩
  have h := (scenario_cycle fuel [Event.sending_rreq "A" "D", Event.rreq_to_neighbor "A" "B"]).1
  simp only [scenario_linked, create_device] at h
  rw [initial_world, setup_scenario]
  norm_num [send_rreq, send_rreq_loop, scenario_linked, create_device, can_communicate,
    distance_to_sq, World.print, h]

theorem setup_triangle : setup_neighbors triangle = triangle_linked := by
  decide!

/-- On the triangle topology the calls `receive_rreq(B, A, D)`, `receive_rreq(C, B, D)`
and `receive_rreq(A, C, D)` call one another in a cycle. -/
theorem triangle_cycle (n : Nat) : ∀ out,
    receive_rreq n ⟨triangle_linked, out⟩ 1 0 3 = .out_of_fuel ∧
    receive_rreq n ⟨triangle_linked, out⟩ 2 1 3 = .out_of_fuel ∧
    receive_rreq n ⟨triangle_linked, out⟩ 0 2 3 = .out_of_fuel := by
  have hBD : ¬ "B" = "D" := by decide
  have hCD : ¬ "C" = "D" := by decide
  have hAD : ¬ "A" = "D" := by decide
  have hCA : ¬ "C" = "A" := by decide
  have hAB : ¬ "A" = "B" := by decide
  have hBC : ¬ "B" = "C" := by decide
  induction n with
  | zero => intro out; simp [receive_rreq]
  | succ n ih =>
    intro out
    refine ⟨?_, ?_, ?_⟩
    · have h := (ih (out ++ [Event.received_rreq "B" "A"])).2.1
      simp only [triangle_linked, create_device] at h
      norm_num [receive_rreq, rreq_forward, triangle_linked, create_device, can_communicate,
        distance_to_sq, World.print, hBD, hCA, h]
    · have h := (ih (out ++ [Event.received_rreq "C" "B"])).2.2
      simp only [triangle_linked, create_device] at h
      norm_num [receive_rreq, rreq_forward, triangle_linked, create_device, can_communicate,
        distance_to_sq, World.print, hCD, hAB, h]
    · have h := (ih (out ++ [Event.received_rreq "A" "C"])).1
      simp only [triangle_linked, create_device] at h
      norm_num [receive_rreq, rreq_forward, triangle_linked, create_device, can_communicate,
        distance_to_sq, World.print, hAD, hBC, h]

/-- C3 (the code on a cycle): for A, B, C mutually in range (each one's neighbour
list holds the other two) and D in no neighbour list, `send_rreq(A, D)` does not
return within any call depth: the recursion of `receive_rreq` goes round the
cycle for ever, so discovery never reports that there is no route. -/
theorem triangle_discovery_diverges :
    (initial_world triangle).devices.map Device.neighbors = [[1, 2], [0, 2], [0, 1], []] ∧
    ∀ fuel, send_rreq fuel (initial_world triangle) 0 3 = .out_of_fuel := by
  refine ⟨by rw [initial_world, setup_triangle]; rfl, fun fuel => ?_⟩
  have h := (triangle_cycle fuel [Event.sending_rreq "A" "D", Event.rreq_to_neighbor "A" "B"]).1
  simp only [triangle_linked, create_device] at h
  rw [initial_world, setup_triangle]
  norm_num [send_rreq, send_rreq_loop, triangle_linked, create_device, can_communicate,
    distance_to_sq, World.print, h]

/-! ## Route replies and the routing table -/

/-- The effect of `update_routing_table` on a table that is not full: one slot
is appended, whatever the table holds. -/
theorem update_routing_table_appends (devices : List Device) (out : List Event) (device : Nat)
    (destination_device_id : String) (d : Device) (hd : devices[device]? = some d)
    (hfull : d.num_routes < MAX_DEVICES) :
    update_routing_table ⟨devices, out⟩ device destination_device_id =
      .done { devices := devices.set device
                { d with routing_table := d.routing_table ++
                    [{ destination_id := destination_device_id, next_hop := d.device_id,
                       hop_count := 1 }] },
              out := out ++ [.updated_table d.device_id destination_device_id 1] } := by
  simp only [update_routing_table, hd, if_pos hfull]

/-- Discovery towards a destination that is the only neighbour of the source and
in its range: the request reaches it at once and the reply appends one slot to
the table of the source. -/
theorem send_rreq_direct (fuel : Nat) (w : World) (s t : Nat) (S D : Device)
    (hS : w.devices[s]? = some S) (hD : w.devices[t]? = some D)
    (hn : S.neighbors = [t]) (hc : can_communicate S D = true)
    (hfull : S.num_routes < MAX_DEVICES) :
    send_rreq (fuel + 1) w s t =
      .done { devices := w.devices.set s
                { S with routing_table := S.routing_table ++
                    [{ destination_id := D.device_id, next_hop := S.device_id, hop_count := 1 }] },
              out := w.out ++ [.sending_rreq S.device_id D.device_id,
                .rreq_to_neighbor S.device_id D.device_id,
                .received_rreq D.device_id S.device_id,
                .found_route D.device_id D.device_id,
                .sending_rrep D.device_id S.device_id,
                .updated_table S.device_id D.device_id 1] } := by
  simp only [send_rreq, hS, hD, hn, send_rreq_loop, World.print, hc, if_true, receive_rreq,
    send_rrep]
  rw [update_routing_table_appends w.devices _ s D.device_id S hS hfull]
  simp [hn]

theorem entries_for_append_same (destination_id : String) (table : List RouteEntry)
    (e : RouteEntry) (he : e.destination_id = destination_id) :
    entries_for destination_id (table ++ [e]) = entries_for destination_id table + 1 := by
  simp [entries_for, List.filter_append, he]

/-- C4 (counterexample): a table that already holds an entry for D gets a second
one from `update_routing_table`, and `num_routes` goes from 1 to 2; discovery
from S to its direct neighbour D, run twice from empty tables, leaves two entries
for D at S. -/
theorem discovery_twice_duplicates :
    holder.devices.map (fun d => (d.num_routes, entries_for "D" d.routing_table)) = [(1, 1)] ∧
    (update_routing_table holder 0 "D").tables
      = some [[{ destination_id := "D", next_hop := "S", hop_count := 1 },
               { destination_id := "D", next_hop := "S", hop_count := 1 }]] ∧
    (initial_world pair).devices.map Device.neighbors = [[1], [0]] ∧
    (((send_rreq 1 (initial_world pair) 0 1).bind
        (fun w1 => send_rreq 1 w1 0 1)).tables).map (List.map (entries_for "D")) = some [2, 0] := by
  decide!

/-- C4 (amended): on a table that is not full `update_routing_table` appends one
slot for the destination in every case, so `num_routes` and the number of
entries for that destination both grow by one, also when the table already holds
the destination; and for a source whose only neighbour is the destination, in
range, two discoveries from an empty table leave exactly two entries for the
destination at the source. -/
theorem update_routing_table_always_appends (w : World) (device : Nat)
    (destination_device_id : String) (d : Device)
    (hd : w.devices[device]? = some d) (hfull : d.num_routes < MAX_DEVICES) :
    (∃ w1 d1 e, update_routing_table w device destination_device_id = .done w1 ∧
      w1.devices = w.devices.set device d1 ∧
      d1.routing_table = d.routing_table ++ [e] ∧ e.destination_id = destination_device_id ∧
      d1.num_routes = d.num_routes + 1 ∧
      entries_for destination_device_id d1.routing_table
        = entries_for destination_device_id d.routing_table + 1) ∧
    (∀ (fuel t : Nat) (D : Device), w.devices[t]? = some D → device ≠ t →
      d.neighbors = [t] → can_communicate d D = true → d.routing_table = [] →
      ∃ w2 d2, (send_rreq (fuel + 1) w device t).bind
          (fun w1 => send_rreq (fuel + 1) w1 device t) = .done w2 ∧
        w2.devices[device]? = some d2 ∧ d2.num_routes = 2 ∧
        entries_for D.device_id d2.routing_table = 2) := by
  constructor
  · refine ⟨_, _, _, update_routing_table_appends w.devices w.out device destination_device_id d
      hd hfull, rfl, rfl, rfl, ?_, ?_⟩
    · simp [Device.num_routes]
    · exact entries_for_append_same _ _ _ rfl
  · intro fuel t D hD hne hn hc hempty
    have hlt : device < w.devices.length := by
      rcases List.getElem?_eq_some.mp hd with ⟨h, _⟩
      exact h
    rw [send_rreq_direct fuel w device t d D hd hD hn hc hfull]
    simp only [Run.bind]
    rw [send_rreq_direct fuel _ device t
      { d with routing_table := d.routing_table ++
          [{ destination_id := D.device_id, next_hop := d.device_id, hop_count := 1 }] }
      D (List.getElem?_set_self hlt)
      (by rw [List.getElem?_set_ne hne]; exact hD) hn hc
      (by simp [Device.num_routes, hempty, MAX_DEVICES])]
    refine ⟨_, _, rfl, List.getElem?_set_self (by simpa using hlt), ?_, ?_⟩
    · simp [Device.num_routes, hempty]
    · simp [entries_for, hempty]

/-- The amended overwrite claim on the pair S, D built by the setup loop. -/
theorem update_routing_table_always_appends_witness :
    (∃ w1 d1 e, update_routing_table (initial_world pair) 0 "D" = .done w1 ∧
      w1.devices = (initial_world pair).devices.set 0 d1 ∧
      d1.routing_table = [] ++ [e] ∧ e.destination_id = "D" ∧
      d1.num_routes = 0 + 1 ∧
      entries_for "D" d1.routing_table = entries_for "D" [] + 1) ∧
    (∃ w2 d2, (send_rreq (0 + 1) (initial_world pair) 0 1).bind
          (fun w1 => send_rreq (0 + 1) w1 0 1) = .done w2 ∧
        w2.devices[0]? = some d2 ∧ d2.num_routes = 2 ∧
        entries_for "D" d2.routing_table = 2) :=
  have h := update_routing_table_always_appends (initial_world pair) 0 "D"
    { create_device "S" 0 0 10 with neighbors := [1] } (by decide!) (by decide)
  ⟨h.1, h.2 0 1 { create_device "D" 1 0 10 with neighbors := [0] } (by decide!) (by decide) rfl
    (by decide!) rfl⟩

theorem pair_fuel1 :
    (send_rreq 1 (initial_world pair) 0 1).tables
      = some [[{ destination_id := "D", next_hop := "S", hop_count := 1 }], []] := by
  decide!

/-- C5 (the code on the failing input): when the flood reaches D directly from
S, the entry that the reply writes at S is (destination D, next hop S, hop
count 1): the next hop is the own id of S, not the id of D. -/
theorem direct_reply_next_hop_is_own_id :
    (initial_world pair).devices.map Device.device_id = ["S", "D"] ∧
    (initial_world pair).devices.map Device.neighbors = [[1], [0]] ∧
    ∀ k, (send_rreq (1 + k) (initial_world pair) 0 1).tables
      = some [[{ destination_id := "D", next_hop := "S", hop_count := 1 }], []] := by
  refine ⟨by decide!, by decide!, fun k => ?_⟩
  have h1 := pair_fuel1
  rw [send_rreq_fuel_mono 1 k _ _ _ ?_]
  · exact h1
  · intro h
    rw [h] at h1
    exact absurd h1 (by simp [Run.tables])

/-! ## The neighbour setup of `main` -/

theorem can_communicate_add_neighbors (l1 l2 : List Nat) (d1 d2 : Device) :
    can_communicate (add_neighbors l1 d1) (add_neighbors l2 d2) = can_communicate d1 d2 := rfl

theorem linked_in_range (ds0 ds : List Device) (f : Nat → List Nat) (h : Linked ds0 f ds)
    (i j : Nat) : in_range_of ds i j = in_range_of ds0 i j := by
  unfold in_range_of
  rw [h i, h j]
  cases ds0[i]? <;> cases ds0[j]? <;> simp [can_communicate_add_neighbors]

theorem linked_refl (ds0 : List Device) : Linked ds0 (fun _ => []) ds0 := by
  intro k
  cases ds0[k]? <;> simp [add_neighbors]

theorem setup_step_eq (i j : Nat) (ds : List Device) :
    setup_step i j ds =
      if in_range_of ds i j = true then
        match ds[i]? with
        | some di => ds.set i (add_neighbors [j] di)
        | none => ds
      else ds := by
  unfold setup_step in_range_of
  cases hi : ds[i]? <;> cases hj : ds[j]? <;> simp [add_neighbors]

theorem linked_step (ds0 ds : List Device) (f : Nat → List Nat) (h : Linked ds0 f ds)
    (i j : Nat) :
    Linked ds0 (fun k => if k = i ∧ in_range_of ds0 i j = true then f k ++ [j] else f k)
      (setup_step i j ds) := by
  intro k
  rw [setup_step_eq, linked_in_range ds0 ds f h]
  by_cases hr : in_range_of ds0 i j = true
  · simp only [hr, and_true, if_true]
    cases hi : ds[i]? with
    | none =>
      simp only
      rw [h k]
      by_cases hk : k = i
      · subst hk
        have h1 := h k
        rw [hi] at h1
        cases h0 : ds0[k]? with
        | none => simp
        | some a => rw [h0] at h1; simp at h1
      · simp [hk]
    | some di =>
      simp only
      by_cases hk : k = i
      · subst hk
        have hlt : k < ds.length := (List.getElem?_eq_some.mp hi).1
        rw [List.getElem?_set_self hlt]
        have h1 := h k
        rw [hi] at h1
        cases h0 : ds0[k]? with
        | none => rw [h0] at h1; simp at h1
        | some a =>
          rw [h0] at h1
          simp only [Option.map_some', Option.some.injEq] at h1
          simp [h1, add_neighbors]
      · rw [List.getElem?_set_ne (Ne.symm hk), h k]
        simp [hk]
  · rw [if_neg hr]
    show ds[k]? = Option.map
      (add_neighbors (if k = i ∧ in_range_of ds0 i j = true then f k ++ [j] else f k)) ds0[k]?
    rw [if_neg (fun hc => hr hc.2)]
    exact h k

theorem linked_congr (ds0 ds : List Device) (f g : Nat → List Nat) (h : Linked ds0 f ds)
    (hfg : ∀ k, f k = g k) : Linked ds0 g ds := by
  intro k
  rw [← hfg k]
  exact h k

theorem linked_row (ds0 : List Device) (i : Nat) (js : List Nat) :
    ∀ (ds : List Device) (f : Nat → List Nat), Linked ds0 f ds →
      Linked ds0 (fun k => if k = i then f k ++ js.filter (in_range_of ds0 i) else f k)
        (js.foldl (fun ds j => setup_step i j ds) ds) := by
  induction js with
  | nil =>
    intro ds f h
    exact linked_congr ds0 ds f _ h (fun k => by by_cases hk : k = i <;> simp [hk])
  | cons j js ih =>
    intro ds f h
    rw [List.foldl_cons]
    refine linked_congr ds0 _ _ _ (ih _ _ (linked_step ds0 ds f h i j)) (fun k => ?_)
    by_cases hk : k = i
    · by_cases hr : in_range_of ds0 i j = true
      · simp [hk, hr, List.filter_cons]
      · simp [hk, hr, List.filter_cons]
    · simp [hk]

theorem linked_rows (ds0 : List Device) (n : Nat) (is : List Nat) :
    ∀ (ds : List Device) (f : Nat → List Nat), is.Nodup → Linked ds0 f ds →
      Linked ds0
        (fun k => if k ∈ is then f k ++ (List.range n).filter (in_range_of ds0 k) else f k)
        (is.foldl (fun ds i => setup_row n i ds) ds) := by
  induction is with
  | nil =>
    intro ds f _ h
    exact linked_congr ds0 ds f _ h (fun k => by simp)
  | cons i is ih =>
    intro ds f hnd h
    rw [List.foldl_cons]
    rw [List.nodup_cons] at hnd
    refine linked_congr ds0 _ _ _ (ih _ _ hnd.2 (linked_row ds0 i (List.range n) ds f h))
      (fun k => ?_)
    by_cases hk : k = i
    · subst hk
      simp [hnd.1]
    · by_cases hm : k ∈ is
      · simp [hk, hm]
      · simp [hk, hm]

/-- Closed form of the neighbour setup: device `k` gains, in index order, the
indices `j` of the devices that pass the test of line 134. -/
theorem setup_neighbors_linked (devices : List Device) :
    Linked devices (fun k => (List.range devices.length).filter (in_range_of devices k))
      (setup_neighbors devices) := by
  have h := linked_rows devices devices.length (List.range devices.length) devices
    (fun _ => []) (List.nodup_range _) (linked_refl devices)
  intro k
  rw [setup_neighbors, h k]
  by_cases hk : k < devices.length
  · simp [hk]
  · rw [List.getElem?_eq_none (Nat.le_of_not_lt hk)]
    rfl

/-! ### The setup for any range test -/

theorem can_communicate_eq_by (dev1 dev2 : Device) :
    can_communicate dev1 dev2 = can_communicate_by exact_in_range dev1 dev2 := rfl

theorem setup_neighbors_eq_by (devices : List Device) :
    setup_neighbors devices = setup_neighbors_by exact_in_range devices := rfl

theorem linked_in_range_by (in_range : ℚ → ℚ → ℚ → ℚ → ℚ → Bool) (ds0 ds : List Device)
    (f : Nat → List Nat) (h : Linked ds0 f ds) (i j : Nat) :
    in_range_of_by in_range ds i j = in_range_of_by in_range ds0 i j := by
  unfold in_range_of_by
  rw [h i, h j]
  cases ds0[i]? <;> cases ds0[j]? <;> rfl

theorem setup_step_by_eq (in_range : ℚ → ℚ → ℚ → ℚ → ℚ → Bool) (i j : Nat)
    (ds : List Device) :
    setup_step_by in_range i j ds =
      if in_range_of_by in_range ds i j = true then
        match ds[i]? with
        | some di => ds.set i (add_neighbors [j] di)
        | none => ds
      else ds := by
  unfold setup_step_by in_range_of_by
  cases hi : ds[i]? <;> cases hj : ds[j]? <;> simp [add_neighbors]

theorem linked_step_by (in_range : ℚ → ℚ → ℚ → ℚ → ℚ → Bool) (ds0 ds : List Device)
    (f : Nat → List Nat) (h : Linked ds0 f ds) (i j : Nat) :
    Linked ds0
      (fun k => if k = i ∧ in_range_of_by in_range ds0 i j = true then f k ++ [j] else f k)
      (setup_step_by in_range i j ds) := by
  intro k
  rw [setup_step_by_eq, linked_in_range_by in_range ds0 ds f h]
  by_cases hr : in_range_of_by in_range ds0 i j = true
  · simp only [hr, and_true, if_true]
    cases hi : ds[i]? with
    | none =>
      simp only
      rw [h k]
      by_cases hk : k = i
      · subst hk
        have h1 := h k
        rw [hi] at h1
        cases h0 : ds0[k]? with
        | none => simp
        | some a => rw [h0] at h1; simp at h1
      · simp [hk]
    | some di =>
      simp only
      by_cases hk : k = i
      · subst hk
        have hlt : k < ds.length := (List.getElem?_eq_some.mp hi).1
        rw [List.getElem?_set_self hlt]
        have h1 := h k
        rw [hi] at h1
        cases h0 : ds0[k]? with
        | none => rw [h0] at h1; simp at h1
        | some a =>
          rw [h0] at h1
          simp only [Option.map_some', Option.some.injEq] at h1
          simp [h1, add_neighbors]
      · rw [List.getElem?_set_ne (Ne.symm hk), h k]
        simp [hk]
  · rw [if_neg hr]
    show ds[k]? = Option.map
      (add_neighbors (if k = i ∧ in_range_of_by in_range ds0 i j = true then f k ++ [j] else f k)) ds0[k]?
    rw [if_neg (fun hc => hr hc.2)]
    exact h k

theorem linked_row_by (in_range : ℚ → ℚ → ℚ → ℚ → ℚ → Bool) (ds0 : List Device) (i : Nat)
    (js : List Nat) :
    ∀ (ds : List Device) (f : Nat → List Nat), Linked ds0 f ds →
      Linked ds0
        (fun k => if k = i then f k ++ js.filter (in_range_of_by in_range ds0 i) else f k)
        (js.foldl (fun ds j => setup_step_by in_range i j ds) ds) := by
  induction js with
  | nil =>
    intro ds f h
    exact linked_congr ds0 ds f _ h (fun k => by by_cases hk : k = i <;> simp [hk])
  | cons j js ih =>
    intro ds f h
    rw [List.foldl_cons]
    refine linked_congr ds0 _ _ _ (ih _ _ (linked_step_by in_range ds0 ds f h i j))
      (fun k => ?_)
    by_cases hk : k = i
    · by_cases hr : in_range_of_by in_range ds0 i j = true
      · simp [hk, hr, List.filter_cons]
      · simp [hk, hr, List.filter_cons]
    · simp [hk]

theorem linked_rows_by (in_range : ℚ → ℚ → ℚ → ℚ → ℚ → Bool) (ds0 : List Device) (n : Nat)
    (is : List Nat) :
    ∀ (ds : List Device) (f : Nat → List Nat), is.Nodup → Linked ds0 f ds →
      Linked ds0
        (fun k => if k ∈ is then
          f k ++ (List.range n).filter (in_range_of_by in_range ds0 k) else f k)
        (is.foldl (fun ds i => setup_row_by in_range n i ds) ds) := by
  induction is with
  | nil =>
    intro ds f _ h
    exact linked_congr ds0 ds f _ h (fun k => by simp)
  | cons i is ih =>
    intro ds f hnd h
    rw [List.foldl_cons]
    rw [List.nodup_cons] at hnd
    refine linked_congr ds0 _ _ _
      (ih _ _ hnd.2 (linked_row_by in_range ds0 i (List.range n) ds f h)) (fun k => ?_)
    by_cases hk : k = i
    · subst hk
      simp [hnd.1]
    · by_cases hm : k ∈ is
      · simp [hk, hm]
      · simp [hk, hm]

/-- Device `i` after the neighbour setup run with any range test: the device
itself with the indices that pass the test of line 134 appended, in index order,
to its neighbour list. -/
theorem setup_neighbors_by_get (in_range : ℚ → ℚ → ℚ → ℚ → ℚ → Bool) (devices : List Device)
    (i : Nat) (di : Device) (hi : devices[i]? = some di) :
    (setup_neighbors_by in_range devices)[i]?
      = some (add_neighbors
          ((List.range devices.length).filter (in_range_of_by in_range devices i)) di) := by
  have h := linked_rows_by in_range devices devices.length (List.range devices.length) devices
    (fun _ => []) (List.nodup_range _) (linked_refl devices)
  have hlt : i < devices.length := (List.getElem?_eq_some.mp hi).1
  rw [setup_neighbors_by, h i, hi]
  simp [hlt]

theorem mem_in_range_filter_by (in_range : ℚ → ℚ → ℚ → ℚ → ℚ → Bool) (devices : List Device)
    (i j : Nat) (di dj : Device) (hi : devices[i]? = some di) (hj : devices[j]? = some dj)
    (hne : i ≠ j) :
    j ∈ (List.range devices.length).filter (in_range_of_by in_range devices i) ↔
      can_communicate_by in_range di dj = true := by
  have hlt : j < devices.length := (List.getElem?_eq_some.mp hj).1
  rw [List.mem_filter, List.mem_range]
  simp [in_range_of_by, hi, hj, hne, hlt]

/-- C7: adjacency need not be symmetric. For A at (0,0) with range 10 and B at
(5,0) with range 1 the setup loop puts B in the list of A and leaves the list of
B empty: A can communicate with B, B cannot communicate with A. -/
theorem adjacency_asymmetric :
    lopsided = [create_device "A" 0 0 10, create_device "B" 5 0 1] ∧
    (create_device "A" 0 0 10).mobility_range ≠ (create_device "B" 5 0 1).mobility_range ∧
    (setup_neighbors lopsided).map Device.neighbors = [[1], []] ∧
    can_communicate (create_device "A" 0 0 10) (create_device "B" 5 0 1) = true ∧
    can_communicate (create_device "B" 5 0 1) (create_device "A" 0 0 10) = false := by
  refine ⟨rfl, ?_, ?_, ?_, ?_⟩
  · norm_num [create_device]
  · decide!
  · decide!
  · decide!

/-! ## The query step of `main` -/

/-- The search of lines 147-155 for the source: either no device of the list has
the id and the pointer keeps its value, or it points at a device with the id. -/
theorem find_devices_fst (sid did : String) (l : List Device) :
    ∀ (i : Nat) (found : Option Nat × Option Nat),
      ((∀ d ∈ l, d.device_id ≠ sid) ∧ (find_devices sid did l i found).1 = found.1) ∨
      (∃ k S, l[k]? = some S ∧ S.device_id = sid ∧
        (find_devices sid did l i found).1 = some (i + k)) := by
  induction l with
  | nil => intro i found; left; simp [find_devices]
  | cons d rest ih =>
    intro i found
    rw [find_devices]
    rcases ih (i + 1)
      (if d.device_id = did then
        ((if d.device_id = sid then (some i, found.2) else found).1, some i)
       else (if d.device_id = sid then (some i, found.2) else found)) with h | ⟨k, S, hk, hS, hres⟩
    · by_cases hd : d.device_id = sid
      · right
        refine ⟨0, d, by simp, hd, ?_⟩
        rw [h.2]
        split_ifs <;> simp
      · left
        refine ⟨?_, ?_⟩
        · intro x hx
          rcases List.mem_cons.mp hx with rfl | hx
          · exact hd
          · exact h.1 x hx
        · rw [h.2]
          split_ifs <;> simp
    · right
      refine ⟨k + 1, S, by simpa using hk, hS, ?_⟩
      rw [hres]
      congr 1
      omega

/-- The search of lines 147-155 for the destination. -/
theorem find_devices_snd (sid did : String) (l : List Device) :
    ∀ (i : Nat) (found : Option Nat × Option Nat),
      ((∀ d ∈ l, d.device_id ≠ did) ∧ (find_devices sid did l i found).2 = found.2) ∨
      (∃ k T, l[k]? = some T ∧ T.device_id = did ∧
        (find_devices sid did l i found).2 = some (i + k)) := by
  induction l with
  | nil => intro i found; left; simp [find_devices]
  | cons d rest ih =>
    intro i found
    rw [find_devices]
    rcases ih (i + 1)
      (if d.device_id = did then
        ((if d.device_id = sid then (some i, found.2) else found).1, some i)
       else (if d.device_id = sid then (some i, found.2) else found)) with h | ⟨k, T, hk, hT, hres⟩
    · by_cases hd : d.device_id = did
      · right
        refine ⟨0, d, by simp, hd, ?_⟩
        rw [h.2]
        split_ifs <;> simp
      · left
        refine ⟨?_, ?_⟩
        · intro x hx
          rcases List.mem_cons.mp hx with rfl | hx
          · exact hd
          · exact h.1 x hx
        · rw [h.2]
          split_ifs <;> simp
    · right
      refine ⟨k + 1, T, by simpa using hk, hT, ?_⟩
      rw [hres]
      congr 1
      omega

/-- C8: in the query step of `main`, when the source id or the destination id
is the id of no device, the run prints the invalid-ids line and nothing else,
whatever the fuel: no line of `send_rreq` is printed and the device array, with
every routing table, is unchanged. When both ids are ids of devices, the run is
`send_rreq` on two devices with these ids followed by the route check. -/
theorem main_query_unknown_node (fuel : Nat) (w : World) (sid did : String) :
    (((∀ d ∈ w.devices, d.device_id ≠ sid) ∨ (∀ d ∈ w.devices, d.device_id ≠ did)) →
      main_query fuel w sid did
        = .done { devices := w.devices, out := w.out ++ [.invalid_ids] }) ∧
    ((∃ d ∈ w.devices, d.device_id = sid) → (∃ d ∈ w.devices, d.device_id = did) →
      ∃ s t S T, w.devices[s]? = some S ∧ S.device_id = sid ∧
        w.devices[t]? = some T ∧ T.device_id = did ∧
        main_query fuel w sid did
          = (send_rreq fuel (w.print (.source_destination sid did)) s t).bind
              (fun w1 => check_route w1 s t)) := by
  constructor
  · intro h
    unfold main_query
    rcases h with h | h
    · rcases find_devices_fst sid did w.devices 0 (none, none) with h1 | ⟨k, S, hk, hS, _⟩
      · have h2 := h1.2
        generalize find_devices sid did w.devices 0 (none, none) = r at h2
        rcases r with ⟨a, b⟩
        simp only at h2
        subst h2
        rfl
      · exact absurd hS (h S (List.getElem?_mem hk))
    · rcases find_devices_snd sid did w.devices 0 (none, none) with h1 | ⟨k, T, hk, hT, _⟩
      · have h2 := h1.2
        generalize find_devices sid did w.devices 0 (none, none) = r at h2
        rcases r with ⟨a, b⟩
        simp only at h2
        subst h2
        cases a <;> rfl
      · exact absurd hT (h T (List.getElem?_mem hk))
  · rintro ⟨ds, hds, hsid⟩ ⟨dt, hdt, hdid⟩
    rcases find_devices_fst sid did w.devices 0 (none, none) with h1 | ⟨s, S, hs, hS, h1⟩
    · exact absurd hsid (h1.1 ds hds)
    rcases find_devices_snd sid did w.devices 0 (none, none) with h2 | ⟨t, T, ht, hT, h2⟩
    · exact absurd hdid (h2.1 dt hdt)
    refine ⟨s, t, S, T, hs, hS, ht, hT, ?_⟩
    unfold main_query
    generalize find_devices sid did w.devices 0 (none, none) = r at h1 h2
    rcases r with ⟨a, b⟩
    simp only [Nat.zero_add] at h1 h2
    subst h1 h2
    simp only [hs, ht, hS, hT]

/-- The query step on the pair S, D: the unknown id X, and the known ids S and D. -/
theorem main_query_unknown_node_witness :
    main_query 5 (initial_world pair) "S" "X"
        = .done { devices := (initial_world pair).devices,
                  out := (initial_world pair).out ++ [.invalid_ids] } ∧
    ∃ s t S T, (initial_world pair).devices[s]? = some S ∧ S.device_id = "S" ∧
        (initial_world pair).devices[t]? = some T ∧ T.device_id = "D" ∧
        main_query 5 (initial_world pair) "S" "D"
          = (send_rreq 5 ((initial_world pair).print (.source_destination "S" "D")) s t).bind
              (fun w1 => check_route w1 s t) :=
  ⟨(main_query_unknown_node 5 (initial_world pair) "S" "X").1 (Or.inr (by decide!)),
   (main_query_unknown_node 5 (initial_world pair) "S" "D").2 (by decide!) (by decide!)⟩

/-! ## Route lookup -/

theorem get_route_scan_none (destination_id : String) (l : List RouteEntry) :
    get_route_scan destination_id l = none ↔ ∀ e ∈ l, e.destination_id ≠ destination_id := by
  induction l with
  | nil => simp [get_route_scan]
  | cons e rest ih =>
    rw [get_route_scan]
    by_cases he : e.destination_id = destination_id
    · simp [he]
    · simp [he, ih]

theorem get_route_scan_some (destination_id : String) (l : List RouteEntry) (e : RouteEntry)
    (h : get_route_scan destination_id l = some e) :
    ∃ i : Nat, l[i]? = some e ∧ e.destination_id = destination_id ∧
      ∀ (j : Nat) (e1 : RouteEntry), j < i → l[j]? = some e1 →
        e1.destination_id ≠ destination_id := by
  induction l with
  | nil => simp [get_route_scan] at h
  | cons a rest ih =>
    rw [get_route_scan] at h
    by_cases ha : a.destination_id = destination_id
    · rw [if_pos ha] at h
      cases h
      exact ⟨0, by simp, ha, fun j e1 hj _ => absurd hj (Nat.not_lt_zero j)⟩
    · rw [if_neg ha] at h
      rcases ih h with ⟨i, hi, he, hmin⟩
      refine ⟨i + 1, by simpa using hi, he, ?_⟩
      intro j e1 hj hj1
      cases j with
      | zero =>
        simp only [List.getElem?_cons_zero, Option.some.injEq] at hj1
        subst hj1
        exact ha
      | succ j =>
        simp only [List.getElem?_cons_succ] at hj1
        exact hmin j e1 (by omega) hj1

/-- C9: `get_route` on two devices of the array returns 1 or 0 and leaves the
device array as it was. It returns 1 exactly when some entry among the first
`num_routes` slots of the table has the id of the destination as its
destination, and 0 otherwise. When it returns 1 the route it prints is the entry
of lowest index with that destination; when it returns 0 it prints that there is
no route. -/
theorem get_route_lookup (w : World) (device destination_device : Nat) (d t : Device)
    (hd : w.devices[device]? = some d) (ht : w.devices[destination_device]? = some t) :
    ∃ w1 r, get_route w device destination_device = .done (w1, r) ∧
      w1.devices = w.devices ∧ (r = 1 ∨ r = 0) ∧
      (r = 1 ↔ ∃ e ∈ d.routing_table, e.destination_id = t.device_id) ∧
      (r = 0 ↔ ∀ e ∈ d.routing_table, e.destination_id ≠ t.device_id) ∧
      (r = 1 → ∃ i e, i < d.num_routes ∧ d.routing_table[i]? = some e ∧
        e.destination_id = t.device_id ∧
        (∀ (j : Nat) (e1 : RouteEntry), j < i → d.routing_table[j]? = some e1 →
          e1.destination_id ≠ t.device_id) ∧
        w1.out = w.out ++ [.route_found d.device_id e.next_hop e.hop_count]) ∧
      (r = 0 → w1.out = w.out ++ [.no_route_to t.device_id]) := by
  unfold get_route
  simp only [hd, ht]
  cases hscan : get_route_scan t.device_id d.routing_table with
  | none =>
    have hnone := (get_route_scan_none t.device_id d.routing_table).mp hscan
    refine ⟨_, _, rfl, rfl, Or.inr rfl, ?_, ?_, ?_, ?_⟩
    · constructor
      · intro h; exact absurd h (by decide)
      · rintro ⟨e, he, heq⟩; exact absurd heq (hnone e he)
    · exact ⟨fun _ => hnone, fun _ => rfl⟩
    · intro h; exact absurd h (by decide)
    · intro _; rfl
  | some e =>
    rcases get_route_scan_some t.device_id d.routing_table e hscan with ⟨i, hi, he, hmin⟩
    refine ⟨_, _, rfl, rfl, Or.inl rfl, ?_, ?_, ?_, ?_⟩
    · exact ⟨fun _ => ⟨e, List.getElem?_mem hi, he⟩, fun _ => rfl⟩
    · constructor
      · intro h; exact absurd h (by decide)
      · intro h; exact absurd he (h e (List.getElem?_mem hi))
    · intro _
      exact ⟨i, e, (List.getElem?_eq_some.mp hi).1, hi, he, hmin, rfl⟩
    · intro h; exact absurd h (by decide)

/-- Route lookup on a device whose table holds one entry, for D. -/
theorem get_route_lookup_witness :
    ∃ w1 r, get_route holder 0 0 = .done (w1, r) ∧
      w1.devices = holder.devices ∧ (r = 1 ∨ r = 0) ∧
      (r = 1 ↔ ∃ e ∈ [({ destination_id := "D", next_hop := "S", hop_count := 1 } : RouteEntry)],
        e.destination_id = "S") ∧
      (r = 0 ↔ ∀ e ∈ [({ destination_id := "D", next_hop := "S", hop_count := 1 } : RouteEntry)],
        e.destination_id ≠ "S") ∧
      (r = 1 → ∃ i e, i < 1 ∧
        [({ destination_id := "D", next_hop := "S", hop_count := 1 } : RouteEntry)][i]? = some e ∧
        e.destination_id = "S" ∧
        (∀ (j : Nat) (e1 : RouteEntry), j < i →
          [({ destination_id := "D", next_hop := "S", hop_count := 1 } : RouteEntry)][j]? = some e1 →
          e1.destination_id ≠ "S") ∧
        w1.out = holder.out ++ [.route_found "S" e.next_hop e.hop_count]) ∧
      (r = 0 → w1.out = holder.out ++ [.no_route_to "S"]) :=
  get_route_lookup holder 0 0
    { create_device "S" 0 0 10 with
      routing_table := [{ destination_id := "D", next_hop := "S", hop_count := 1 }] }
    { create_device "S" 0 0 10 with
      routing_table := [{ destination_id := "D", next_hop := "S", hop_count := 1 }] }
    rfl rfl

/-! ## Mobility -/

/-- C10: `move` on a device of the array replaces its position by the `float`
sums `x_pos + dx` and `y_pos + dy`, whatever the `float` addition rounds them to,
and prints the new position; the device keeps its id, its range, its neighbour
list and its routing table, entries and `num_routes` alike, and every other
device is unchanged, so no route is invalidated. -/
theorem move_keeps_routes (fadd : ℚ → ℚ → ℚ) (w : World) (device : Nat) (dx dy : ℚ)
    (d : Device) (hd : w.devices[device]? = some d) :
    ∃ w1 d1, move fadd w device dx dy = .done w1 ∧
      w1.devices = w.devices.set device d1 ∧ w1.devices[device]? = some d1 ∧
      d1.x_pos = fadd d.x_pos dx ∧ d1.y_pos = fadd d.y_pos dy ∧
      d1.device_id = d.device_id ∧ d1.mobility_range = d.mobility_range ∧
      d1.routing_table = d.routing_table ∧ d1.num_routes = d.num_routes ∧
      d1.neighbors = d.neighbors ∧
      (∀ k, k ≠ device → w1.devices[k]? = w.devices[k]?) ∧
      w1.out = w.out ++ [.moved d.device_id (fadd d.x_pos dx) (fadd d.y_pos dy)] := by
  have hlt : device < w.devices.length := (List.getElem?_eq_some.mp hd).1
  refine ⟨{ devices := w.devices.set device
              { d with x_pos := fadd d.x_pos dx, y_pos := fadd d.y_pos dy },
            out := w.out ++ [.moved d.device_id (fadd d.x_pos dx) (fadd d.y_pos dy)] },
    { d with x_pos := fadd d.x_pos dx, y_pos := fadd d.y_pos dy }, ?_, rfl, ?_,
    rfl, rfl, rfl, rfl, rfl, rfl, rfl, ?_, rfl⟩
  · simp only [move, hd]
  · exact List.getElem?_set_self hlt
  · intro k hk
    exact List.getElem?_set_ne (Ne.symm hk)

/-- A move by (3, -4), sums that no `float` addition rounds, of a device whose
table holds one entry. -/
theorem move_keeps_routes_witness :
    ∃ w1 d1, move exact_add holder 0 3 (-4) = .done w1 ∧
      w1.devices = holder.devices.set 0 d1 ∧ w1.devices[0]? = some d1 ∧
      d1.x_pos = exact_add 0 3 ∧ d1.y_pos = exact_add 0 (-4) ∧
      d1.device_id = "S" ∧ d1.mobility_range = 10 ∧
      d1.routing_table = [{ destination_id := "D", next_hop := "S", hop_count := 1 }] ∧
      d1.num_routes = 1 ∧ d1.neighbors = [] ∧
      (∀ k, k ≠ 0 → w1.devices[k]? = holder.devices[k]?) ∧
      w1.out = holder.out ++ [.moved "S" (exact_add 0 3) (exact_add 0 (-4))] :=
  move_keeps_routes exact_add holder 0 3 (-4)
    { create_device "S" 0 0 10 with
      routing_table := [{ destination_id := "D", next_hop := "S", hop_count := 1 }] }
    rfl

/-- Device `i` after the neighbour setup: the device itself with the indices
that pass the test of line 134 appended to its neighbour list. -/
theorem setup_neighbors_get (devices : List Device) (i : Nat) (di : Device)
    (hi : devices[i]? = some di) :
    (setup_neighbors devices)[i]?
      = some (add_neighbors ((List.range devices.length).filter (in_range_of devices i)) di) := by
  rw [setup_neighbors_linked devices i, hi]
  rfl

/-- C11 (counterexample): on the pair S(0,0), D(1,0) with range 10, after
`move(S, 100, 0)`, whose sums 0 + 100 and 0 + 0 no `float` addition rounds, the
neighbour lists are still S:[D], D:[S], while D is no longer within the range of
S at the new position. -/
theorem move_leaves_stale_neighbor :
    (move exact_add (initial_world pair) 0 100 0).devices.map
        (fun ds => (ds.map Device.neighbors, ds.map Device.x_pos, in_range_of ds 0 1))
      = some ([[1], [0]], [100, 1], false) := by
  decide!

/-- C11 (amended): `move` does not recompute adjacency. Whatever the `float`
range test and the `float` addition give, after the setup loop and a move of
device `i` the neighbour list of every device is the one the setup loop built;
for the moved device it holds exactly the other devices that pass
`can_communicate` from the position it had before the move. -/
theorem move_keeps_setup_adjacency (in_range : ℚ → ℚ → ℚ → ℚ → ℚ → Bool)
    (fadd : ℚ → ℚ → ℚ) (devices : List Device) (out : List Event)
    (h0 : ∀ d ∈ devices, d.num_neighbors = 0) (i : Nat) (di : Device)
    (hi : devices[i]? = some di) (dx dy : ℚ) :
    ∃ w1 d1, move fadd ⟨setup_neighbors_by in_range devices, out⟩ i dx dy = .done w1 ∧
      w1.devices[i]? = some d1 ∧
      d1.x_pos = fadd di.x_pos dx ∧ d1.y_pos = fadd di.y_pos dy ∧
      (∀ j dj, devices[j]? = some dj → i ≠ j →
        (j ∈ d1.neighbors ↔ can_communicate_by in_range di dj = true)) ∧
      (∀ k : Nat, (w1.devices[k]?).map Device.neighbors
          = ((setup_neighbors_by in_range devices)[k]?).map Device.neighbors) := by
  have hli := setup_neighbors_by_get in_range devices i di hi
  have hnil : di.neighbors = [] := by
    have := h0 di (List.getElem?_mem hi)
    simpa [Device.num_neighbors] using this
  have hlt : i < (setup_neighbors_by in_range devices).length :=
    (List.getElem?_eq_some.mp hli).1
  refine ⟨_, _, by simp only [move, hli]; rfl, List.getElem?_set_self hlt,
    rfl, rfl, ?_, ?_⟩
  · intro j dj hj hne
    show j ∈ di.neighbors ++
      (List.range devices.length).filter (in_range_of_by in_range devices i) ↔ _
    rw [hnil, List.nil_append]
    exact mem_in_range_filter_by in_range devices i j di dj hi hj hne
  · intro k
    by_cases hk : k = i
    · subst hk
      rw [List.getElem?_set_self hlt, hli]
      rfl
    · rw [List.getElem?_set_ne (Ne.symm hk)]

/-- The amended adjacency claim on the pair S, D with S moved by (100, 0), for
the range test and the sums computed without rounding. -/
theorem move_keeps_setup_adjacency_witness :
    ∃ w1 d1, move exact_add ⟨setup_neighbors_by exact_in_range pair, []⟩ 0 100 0 = .done w1 ∧
      w1.devices[0]? = some d1 ∧
      d1.x_pos = exact_add (create_device "S" 0 0 10).x_pos 100 ∧
      d1.y_pos = exact_add (create_device "S" 0 0 10).y_pos 0 ∧
      (∀ j dj, pair[j]? = some dj → 0 ≠ j →
        (j ∈ d1.neighbors ↔
          can_communicate_by exact_in_range (create_device "S" 0 0 10) dj = true)) ∧
      (∀ k : Nat, (w1.devices[k]?).map Device.neighbors
          = ((setup_neighbors_by exact_in_range pair)[k]?).map Device.neighbors) :=
  move_keeps_setup_adjacency exact_in_range exact_add pair [] (by decide) 0
    (create_device "S" 0 0 10) rfl 100 0

/-! ## Construction of the devices -/

theorem is_id_token_fits (s : String) (h : is_id_token s = true) : s.utf8ByteSize < 20 := by
  simp only [is_id_token, Bool.and_eq_true, decide_eq_true_eq] at h
  exact h.1.2

theorem read_devices_eq (inputs : List DeviceInput) :
    ∀ devices : List Device, devices.length + inputs.length ≤ MAX_DEVICES →
      (∀ r ∈ inputs, r.device_id.utf8ByteSize < 20) →
      read_devices inputs devices = .done (devices ++ inputs.map
        (fun r => create_device r.device_id r.x_pos r.y_pos r.mobility_range)) := by
  induction inputs with
  | nil => intro devices _ _; simp [read_devices]
  | cons r rest ih =>
    intro devices h hid
    simp only [List.length_cons] at h
    have h1 : devices.length < MAX_DEVICES := by omega
    have h2 : (devices ++ [create_device r.device_id r.x_pos r.y_pos r.mobility_range]).length
        + rest.length ≤ MAX_DEVICES := by
      simp only [List.length_append, List.length_cons, List.length_nil]
      omega
    rw [read_devices, if_pos ⟨h1, hid r (List.mem_cons_self _ _)⟩,
      ih _ h2 (fun x hx => hid x (List.mem_cons_of_mem _ hx))]
    simp

/-- C12 (counterexample): two input records with the same id A are both
stored: the construction loop finishes with two devices whose id is A. -/
theorem duplicate_id_accepted :
    read_devices [{ device_id := "A", x_pos := 0, y_pos := 0, mobility_range := 10 },
        { device_id := "A", x_pos := 5, y_pos := 0, mobility_range := 10 }] []
      = .done [create_device "A" 0 0 10, create_device "A" 5 0 10] := by
  decide!

/-- C12 (amended): the construction loop of `main` never rejects a record for
its id. For at most `MAX_DEVICES` records whose ids are tokens that fit
`char[20]` it stores one device per record, in input order, with the id,
position and range of the record, whether or not the id is already present; the
ids of the topology are pairwise distinct exactly when the ids of the input
are. -/
theorem read_devices_accepts_all (inputs : List DeviceInput)
    (hn : inputs.length ≤ MAX_DEVICES)
    (hid : ∀ r ∈ inputs, is_id_token r.device_id = true) :
    ∃ devices, read_devices inputs [] = .done devices ∧
      devices.length = inputs.length ∧
      devices = inputs.map
        (fun r => create_device r.device_id r.x_pos r.y_pos r.mobility_range) ∧
      devices.map Device.device_id = inputs.map DeviceInput.device_id ∧
      ((devices.map Device.device_id).Nodup ↔ (inputs.map DeviceInput.device_id).Nodup) := by
  have hids : (inputs.map
      (fun r => create_device r.device_id r.x_pos r.y_pos r.mobility_range)).map Device.device_id
      = inputs.map DeviceInput.device_id := by
    rw [List.map_map]
    rfl
  refine ⟨_, ?_, ?_, rfl, hids, by rw [hids]⟩
  · rw [read_devices_eq inputs [] (by simpa using hn)
      (fun r hr => is_id_token_fits r.device_id (hid r hr))]
    rfl
  · simp

/-- The amended construction claim on two records that share the id A. -/
theorem read_devices_accepts_all_witness :
    ∃ devices, read_devices [{ device_id := "A", x_pos := 0, y_pos := 0, mobility_range := 10 },
        { device_id := "A", x_pos := 5, y_pos := 0, mobility_range := 10 }] [] = .done devices ∧
      devices.length = [({ device_id := "A", x_pos := 0, y_pos := 0, mobility_range := 10 } :
          DeviceInput), { device_id := "A", x_pos := 5, y_pos := 0, mobility_range := 10 }].length ∧
      devices = [({ device_id := "A", x_pos := 0, y_pos := 0, mobility_range := 10 } :
          DeviceInput), { device_id := "A", x_pos := 5, y_pos := 0, mobility_range := 10 }].map
        (fun r => create_device r.device_id r.x_pos r.y_pos r.mobility_range) ∧
      devices.map Device.device_id
        = [({ device_id := "A", x_pos := 0, y_pos := 0, mobility_range := 10 } :
          DeviceInput), { device_id := "A", x_pos := 5, y_pos := 0, mobility_range := 10 }].map
            DeviceInput.device_id ∧
      ((devices.map Device.device_id).Nodup ↔
        ([({ device_id := "A", x_pos := 0, y_pos := 0, mobility_range := 10 } :
          DeviceInput), { device_id := "A", x_pos := 5, y_pos := 0, mobility_range := 10 }].map
            DeviceInput.device_id).Nodup) :=
  read_devices_accepts_all _ (by decide) (by decide)

/-! ## Distance -/

/-- C13: the distance is symmetric and the distance of a device to itself is
zero, as equalities of the squared distances and of their real square roots. -/
theorem distance_to_symmetric (a b : Device) :
    distance_to_sq a b = distance_to_sq b a ∧ distance_to_sq a a = 0 ∧
    Real.sqrt (distance_to_sq a b : ℚ) = Real.sqrt (distance_to_sq b a : ℚ) ∧
    Real.sqrt (distance_to_sq a a : ℚ) = 0 := by
  have h1 : distance_to_sq a b = distance_to_sq b a := by
    unfold distance_to_sq
    ring
  have h2 : distance_to_sq a a = 0 := by
    unfold distance_to_sq
    ring
  refine ⟨h1, h2, by rw [h1], ?_⟩
  rw [h2]
  simp

/-! ## What a flood changes -/

theorem tabled_refl (ds0 : List Device) : Tabled ds0 (fun _ => []) ds0 := by
  intro k
  cases ds0[k]? <;> simp [add_routes]

theorem tabled_get (ds0 ds : List Device) (f : Nat → List RouteEntry) (h : Tabled ds0 f ds)
    (k : Nat) (d : Device) (hd : ds[k]? = some d) :
    ∃ d0, ds0[k]? = some d0 ∧ d = add_routes (f k) d0 := by
  have h1 := h k
  rw [hd] at h1
  cases h0 : ds0[k]? with
  | none => rw [h0] at h1; simp at h1
  | some d0 =>
    rw [h0] at h1
    simp only [Option.map_some', Option.some.injEq] at h1
    exact ⟨d0, rfl, h1⟩

theorem tabled_length (ds0 ds : List Device) (f : Nat → List RouteEntry) (h : Tabled ds0 f ds) :
    ds.length = ds0.length := by
  rcases Nat.lt_trichotomy ds.length ds0.length with hlt | heq | hgt
  · have h1 := h ds.length
    rw [List.getElem?_eq_none (Nat.le_refl _), List.getElem?_eq_getElem hlt] at h1
    simp at h1
  · exact heq
  · have h1 := h ds0.length
    rw [List.getElem?_eq_none (Nat.le_refl _), List.getElem?_eq_getElem hgt] at h1
    simp at h1

theorem can_communicate_add_routes (l1 l2 : List RouteEntry) (d1 d2 : Device) :
    can_communicate (add_routes l1 d1) (add_routes l2 d2) = can_communicate d1 d2 := rfl

theorem forward_test_tabled (ds0 ds : List Device) (f : Nat → List RouteEntry)
    (h : Tabled ds0 f ds) (c p n : Nat) : forward_test ds c p n = forward_test ds0 c p n := by
  unfold forward_test
  rw [h c, h n, h p]
  cases ds0[c]? <;> cases ds0[n]? <;> cases ds0[p]? <;> try rfl

/-- One write of `update_routing_table` keeps the flood state. -/
theorem flooded_update (ds0 : List Device) (t : Nat) (E : Nat → Nat → Prop)
    (f : Nat → List RouteEntry) (devices : List Device) (out : List Event) (p : Nat)
    (destination_device_id : String) (P0 : Device) (w1 : World)
    (hf : Flooded ds0 t E f devices) (hP : ds0[p]? = some P0)
    (hw : Wrote ds0 t E p
      { destination_id := destination_device_id, next_hop := P0.device_id, hop_count := 1 })
    (hrun : update_routing_table ⟨devices, out⟩ p destination_device_id = .done w1) :
    Flooded ds0 t E
      (fun k => if k = p then f k ++
        [{ destination_id := destination_device_id, next_hop := P0.device_id, hop_count := 1 }]
        else f k) w1.devices := by
  have hp : devices[p]? = some (add_routes (f p) P0) := by rw [hf.1 p, hP]; rfl
  have hlt : p < devices.length := (List.getElem?_eq_some.mp hp).1
  simp only [update_routing_table, hp] at hrun
  split at hrun
  · cases hrun
    refine ⟨fun k => ?_, fun k e he => ?_⟩
    · by_cases hk : k = p
      · subst hk
        simp only [List.getElem?_set_self hlt, hP, if_true, Option.map_some']
        simp [add_routes]
      · simp only [List.getElem?_set_ne (Ne.symm hk), if_neg hk]
        exact hf.1 k
    · by_cases hk : k = p
      · subst hk
        simp only [if_true, List.mem_append, List.mem_singleton] at he
        rcases he with he | he
        · exact hf.2 k e he
        · rw [he]; exact hw
      · simp only [if_neg hk] at he
        exact hf.2 k e he
  · cases hrun

/-- The forwarding loop keeps the flood state when every call does. -/
theorem flooded_forward (ds0 : List Device) (t : Nat) (E : Nat → Nat → Prop)
    (hE : ∀ (c n : Nat) (C N : Device), ds0[c]? = some C → ds0[n]? = some N →
      n ∈ C.neighbors → can_communicate C N = true → E c n)
    (recv : World → Nat → Nat → Nat → Run World) (c p : Nat) (C0 : Device)
    (hC : ds0[c]? = some C0)
    (hrecv : ∀ (w : World) (n : Nat) (f : Nat → List RouteEntry) (w1 : World),
      Flooded ds0 t E f w.devices → E c n → recv w n c t = .done w1 →
      ∃ f1, Flooded ds0 t E f1 w1.devices ∧ ∀ k, f k <+: f1 k)
    (l : List Nat) :
    (∀ n ∈ l, n ∈ C0.neighbors) →
    ∀ (w : World) (f : Nat → List RouteEntry) (w1 : World),
      Flooded ds0 t E f w.devices → rreq_forward recv c p t l w = .done w1 →
      ∃ f1, Flooded ds0 t E f1 w1.devices ∧ ∀ k, f k <+: f1 k := by
  induction l with
  | nil =>
    intro _ w f w1 hf hrun
    simp only [rreq_forward, Run.done.injEq] at hrun
    subst hrun
    exact ⟨f, hf, fun k => List.prefix_refl _⟩
  | cons n rest ih =>
    intro hl w f w1 hf hrun
    have hrest : ∀ m ∈ rest, m ∈ C0.neighbors := fun m hm => hl m (List.mem_cons_of_mem _ hm)
    simp only [rreq_forward] at hrun
    cases hd : w.devices[c]? with
    | none => simp [hd] at hrun
    | some d =>
      cases hn : w.devices[n]? with
      | none => simp [hd, hn] at hrun
      | some nn =>
        cases hs : w.devices[p]? with
        | none => simp [hd, hn, hs] at hrun
        | some s =>
          simp only [hd, hn, hs] at hrun
          by_cases htest : nn.device_id ≠ s.device_id ∧ can_communicate d nn = true
          · rw [if_pos htest] at hrun
            rcases tabled_get ds0 w.devices f hf.1 c d hd with ⟨d0, hd0, hdeq⟩
            rcases tabled_get ds0 w.devices f hf.1 n nn hn with ⟨n0, hn0, hneq⟩
            rw [hC, Option.some.injEq] at hd0
            subst hd0
            have hcc : can_communicate C0 n0 = true := by
              rw [← htest.2, hdeq, hneq]
              rfl
            have hEcn : E c n := hE c n C0 n0 hC hn0 (hl n (List.mem_cons_self _ _)) hcc
            cases h1 : recv w n c t with
            | done w2 =>
              rw [h1] at hrun
              rcases hrecv w n f w2 hf hEcn h1 with ⟨f2, hf2, hpre2⟩
              rcases ih hrest w2 f2 w1 hf2 hrun with ⟨f1, hf1, hpre1⟩
              exact ⟨f1, hf1, fun k => (hpre2 k).trans (hpre1 k)⟩
            | fault => rw [h1] at hrun; cases hrun
            | out_of_fuel => rw [h1] at hrun; cases hrun
          · rw [if_neg htest] at hrun
            exact ih hrest w f w1 hf hrun

/-- A call of `receive_rreq` that returns keeps the flood state: tables only
grow, by entries that replies wrote; and when the receiving device carries the
id of the destination, the table of the sender is not empty afterwards. -/
theorem flooded_receive (ds0 : List Device) (t : Nat) (E : Nat → Nat → Prop)
    (hE : ∀ (c n : Nat) (C N : Device), ds0[c]? = some C → ds0[n]? = some N →
      n ∈ C.neighbors → can_communicate C N = true → E c n)
    (fuel : Nat) :
    ∀ (w : World) (c p : Nat) (f : Nat → List RouteEntry) (w1 : World),
      Flooded ds0 t E f w.devices → E p c → receive_rreq fuel w c p t = .done w1 →
      ∃ f1, Flooded ds0 t E f1 w1.devices ∧ (∀ k, f k <+: f1 k) ∧
        (∀ C T : Device, ds0[c]? = some C → ds0[t]? = some T →
          C.device_id = T.device_id → f1 p ≠ []) := by
  induction fuel with
  | zero =>
    intro w c p f w1 _ _ hrun
    simp [receive_rreq] at hrun
  | succ fuel ih =>
    intro w c p f w1 hf hEpc hrun
    rw [receive_rreq] at hrun
    cases hd : w.devices[c]? with
    | none => simp [hd] at hrun
    | some d =>
      cases hs : w.devices[p]? with
      | none => simp [hd, hs] at hrun
      | some s =>
        cases ht : w.devices[t]? with
        | none => simp [hd, hs, ht] at hrun
        | some tt =>
          simp only [hd, hs, ht] at hrun
          rcases tabled_get ds0 w.devices f hf.1 c d hd with ⟨C0, hC0, hdeq⟩
          rcases tabled_get ds0 w.devices f hf.1 p s hs with ⟨P0, hP0, hseq⟩
          rcases tabled_get ds0 w.devices f hf.1 t tt ht with ⟨T0, hT0, hteq⟩
          have hdid : d.device_id = C0.device_id := by rw [hdeq]; rfl
          have htid : tt.device_id = T0.device_id := by rw [hteq]; rfl
          have hnb : d.neighbors = C0.neighbors := by rw [hdeq]; rfl
          by_cases hid : d.device_id = tt.device_id
          · rw [if_pos hid] at hrun
            simp only [send_rrep, World.print, hd, hs] at hrun
            have hw : Wrote ds0 t E p
                { destination_id := d.device_id, next_hop := P0.device_id, hop_count := 1 } :=
              ⟨c, C0, T0, P0, hC0, hT0, hP0, by rw [← hdid, hid, htid], hEpc,
                by rw [hid, htid]⟩
            have hnew := flooded_update ds0 t E f w.devices _ p d.device_id P0 w1 hf hP0 hw hrun
            refine ⟨_, hnew, fun k => ?_, fun _ _ _ _ _ => ?_⟩
            · by_cases hk : k = p
              · simp only [hk, if_true]
                exact List.prefix_append _ _
              · simp only [if_neg hk]
                exact List.prefix_refl _
            · simp
          · rw [if_neg hid] at hrun
            rw [hnb] at hrun
            rcases flooded_forward ds0 t E hE (receive_rreq fuel) c p C0 hC0
                (fun w2 n f2 w3 hf2 hEcn hrun2 => by
                  rcases ih w2 n c f2 w3 hf2 hEcn hrun2 with ⟨f3, hf3, hpre3, _⟩
                  exact ⟨f3, hf3, hpre3⟩)
                C0.neighbors (fun n hn => hn) (w.print (.received_rreq d.device_id s.device_id))
                f w1 hf hrun with ⟨f1, hf1, hpre1⟩
            refine ⟨f1, hf1, hpre1, fun C T hC hT hCT => ?_⟩
            rw [hC0, Option.some.injEq] at hC
            rw [hT0, Option.some.injEq] at hT
            subst hC hT
            exact absurd (by rw [hdid, hCT, htid]) hid

/-- The loop of `send_rreq` keeps the flood state; when the destination is in
the part of the neighbour list still to be served and in range of the source,
the table of the source is not empty afterwards. -/
theorem flooded_send_loop (ds0 : List Device) (t : Nat) (E : Nat → Nat → Prop)
    (hE : ∀ (c n : Nat) (C N : Device), ds0[c]? = some C → ds0[n]? = some N →
      n ∈ C.neighbors → can_communicate C N = true → E c n)
    (fuel s : Nat) (S0 T0 : Device) (hS : ds0[s]? = some S0) (hT : ds0[t]? = some T0)
    (l : List Nat) :
    (∀ n ∈ l, n ∈ S0.neighbors) →
    ∀ (w : World) (f : Nat → List RouteEntry) (w1 : World),
      Flooded ds0 t E f w.devices → send_rreq_loop fuel s t l w = .done w1 →
      ∃ f1, Flooded ds0 t E f1 w1.devices ∧ (∀ k, f k <+: f1 k) ∧
        (t ∈ l → can_communicate S0 T0 = true → f1 s ≠ []) := by
  induction l with
  | nil =>
    intro _ w f w1 hf hrun
    simp only [send_rreq_loop, Run.done.injEq] at hrun
    subst hrun
    exact ⟨f, hf, fun k => List.prefix_refl _, fun h _ => absurd h (List.not_mem_nil _)⟩
  | cons n rest ih =>
    intro hl w f w1 hf hrun
    have hrest : ∀ m ∈ rest, m ∈ S0.neighbors := fun m hm => hl m (List.mem_cons_of_mem _ hm)
    simp only [send_rreq_loop] at hrun
    cases hs : w.devices[s]? with
    | none => simp [hs] at hrun
    | some sd =>
      cases hn : w.devices[n]? with
      | none => simp [hs, hn] at hrun
      | some nn =>
        simp only [hs, hn] at hrun
        rcases tabled_get ds0 w.devices f hf.1 s sd hs with ⟨s0, hs0, hseq⟩
        rcases tabled_get ds0 w.devices f hf.1 n nn hn with ⟨n0, hn0, hneq⟩
        rw [hS, Option.some.injEq] at hs0
        subst hs0
        have hcceq : can_communicate sd nn = can_communicate S0 n0 := by
          rw [hseq, hneq]
          rfl
        by_cases htest : can_communicate sd nn = true
        · rw [if_pos htest] at hrun
          have hEsn : E s n :=
            hE s n S0 n0 hS hn0 (hl n (List.mem_cons_self _ _)) (by rw [← hcceq]; exact htest)
          cases h1 : receive_rreq fuel (w.print (.rreq_to_neighbor sd.device_id nn.device_id))
              n s t with
          | done w2 =>
            rw [h1] at hrun
            rcases flooded_receive ds0 t E hE fuel
                (w.print (.rreq_to_neighbor sd.device_id nn.device_id)) n s f w2 hf hEsn h1 with
              ⟨f2, hf2, hpre2, hhit⟩
            rcases ih hrest w2 f2 w1 hf2 hrun with ⟨f1, hf1, hpre1, hlater⟩
            refine ⟨f1, hf1, fun k => (hpre2 k).trans (hpre1 k), fun hmem hcc => ?_⟩
            rcases List.mem_cons.mp hmem with heq | hmem
            · subst heq
              exact (hpre1 s).ne_nil (hhit n0 T0 hn0 hT (by
                rw [hT, Option.some.injEq] at hn0
                rw [hn0]))
            · exact hlater hmem hcc
          | fault => rw [h1] at hrun; cases hrun
          | out_of_fuel => rw [h1] at hrun; cases hrun
        · rw [if_neg htest] at hrun
          rcases ih hrest w f w1 hf hrun with ⟨f1, hf1, hpre1, hlater⟩
          refine ⟨f1, hf1, hpre1, fun hmem hcc => ?_⟩
          rcases List.mem_cons.mp hmem with heq | hmem
          · subst heq
            rw [hT, Option.some.injEq] at hn0
            subst hn0
            exact absurd (by rw [hcceq]; exact hcc) htest
          · exact hlater hmem hcc

/-- A run of `send_rreq` that returns keeps the flood state. -/
theorem flooded_send (ds0 : List Device) (t : Nat) (E : Nat → Nat → Prop)
    (hE : ∀ (c n : Nat) (C N : Device), ds0[c]? = some C → ds0[n]? = some N →
      n ∈ C.neighbors → can_communicate C N = true → E c n)
    (fuel s : Nat) (S0 T0 : Device) (hS : ds0[s]? = some S0) (hT : ds0[t]? = some T0)
    (w : World) (f : Nat → List RouteEntry) (w1 : World)
    (hf : Flooded ds0 t E f w.devices) (hrun : send_rreq fuel w s t = .done w1) :
    ∃ f1, Flooded ds0 t E f1 w1.devices ∧ (∀ k, f k <+: f1 k) ∧
      (t ∈ S0.neighbors → can_communicate S0 T0 = true → f1 s ≠ []) := by
  have hs : w.devices[s]? = some (add_routes (f s) S0) := by rw [hf.1 s, hS]; rfl
  have ht : w.devices[t]? = some (add_routes (f t) T0) := by rw [hf.1 t, hT]; rfl
  simp only [send_rreq, hs, ht] at hrun
  exact flooded_send_loop ds0 t E hE fuel s S0 T0 hS hT S0.neighbors (fun n hn => hn)
    (w.print (.sending_rreq (add_routes (f s) S0).device_id (add_routes (f t) T0).device_id))
    f w1 hf hrun

/-! ## One step of the flood -/

theorem rreq_forward_cons (recv : World → Nat → Nat → Nat → Run World) (c p t n : Nat)
    (rest : List Nat) (w : World) (d nn s : Device) (hd : w.devices[c]? = some d)
    (hn : w.devices[n]? = some nn) (hs : w.devices[p]? = some s) :
    rreq_forward recv c p t (n :: rest) w =
      if forward_test w.devices c p n = true then
        (recv w n c t).bind (rreq_forward recv c p t rest)
      else rreq_forward recv c p t rest w := by
  simp only [rreq_forward, forward_test, hd, hn, hs, Bool.and_eq_true, decide_eq_true_eq]
  by_cases htest : nn.device_id ≠ s.device_id ∧ can_communicate d nn = true
  · rw [if_pos htest, if_pos htest]
    cases recv w n c t <;> rfl
  · rw [if_neg htest, if_neg htest]

/-- The loop of lines 60-65 is the sequence of the calls of `receive_rreq` for
the neighbour slots that pass the test of line 62, in the order of the list. -/
theorem rreq_forward_calls (ds0 : List Device) (fuel c p t : Nat)
    (hc : c < ds0.length) (hp : p < ds0.length) (l : List Nat) :
    (∀ n ∈ l, n < ds0.length) →
    ∀ (w : World) (f : Nat → List RouteEntry),
      Flooded ds0 t (fun _ _ => True) f w.devices →
      rreq_forward (receive_rreq fuel) c p t l w =
        forward_calls fuel c t (l.filter (forward_test ds0 c p)) w := by
  induction l with
  | nil => intro _ w f _; rfl
  | cons n rest ih =>
    intro hl w f hf
    have hrest : ∀ m ∈ rest, m < ds0.length := fun m hm => hl m (List.mem_cons_of_mem _ hm)
    have hlook : ∀ k, k < ds0.length → ∃ d, w.devices[k]? = some d := by
      intro k hk
      rw [hf.1 k, List.getElem?_eq_getElem hk]
      exact ⟨_, rfl⟩
    rcases hlook c hc with ⟨d, hd⟩
    rcases hlook p hp with ⟨s, hs⟩
    rcases hlook n (hl n (List.mem_cons_self _ _)) with ⟨nn, hn⟩
    rw [rreq_forward_cons (receive_rreq fuel) c p t n rest w d nn s hd hn hs,
      forward_test_tabled ds0 w.devices f hf.1, List.filter_cons]
    by_cases htest : forward_test ds0 c p n = true
    · rw [if_pos htest, if_pos htest, forward_calls]
      cases h1 : receive_rreq fuel w n c t with
      | done w2 =>
        rcases flooded_receive ds0 t (fun _ _ => True) (fun _ _ _ _ _ _ _ _ => trivial) fuel
          w n c f w2 hf trivial h1 with ⟨f2, hf2, _, _⟩
        exact ih hrest w2 f2 hf2
      | fault => rfl
      | out_of_fuel => rfl
    · rw [if_neg htest, if_neg htest]
      exact ih hrest w f hf

/-- C14: one step of the flood. When the current device carries the id of the
destination, `receive_rreq` forwards nothing: the call is one route reply to the
predecessor. Otherwise the call is the sequence of the calls
`receive_rreq(n, current, dest)`, in neighbour-list order, for exactly those
slots `n` of the neighbour list of the current device whose id differs from the
id of the predecessor and that the current device can communicate with. -/
theorem receive_rreq_step (fuel : Nat) (w : World) (c p t : Nat) (C P T : Device)
    (hC : w.devices[c]? = some C) (hP : w.devices[p]? = some P) (hT : w.devices[t]? = some T)
    (hnb : ∀ n ∈ C.neighbors, n < w.devices.length) :
    (C.device_id = T.device_id →
      receive_rreq (fuel + 1) w c p t =
        send_rrep ((w.print (.received_rreq C.device_id P.device_id)).print
          (.found_route C.device_id T.device_id)) c p) ∧
    (C.device_id ≠ T.device_id →
      receive_rreq (fuel + 1) w c p t =
        forward_calls fuel c t (C.neighbors.filter (forward_test w.devices c p))
          (w.print (.received_rreq C.device_id P.device_id))) ∧
    (∀ n : Nat, n ∈ C.neighbors.filter (forward_test w.devices c p) ↔
      n ∈ C.neighbors ∧ ∃ N, w.devices[n]? = some N ∧ N.device_id ≠ P.device_id ∧
        can_communicate C N = true) := by
  refine ⟨fun hid => ?_, fun hid => ?_, fun n => ?_⟩
  · rw [receive_rreq]
    simp only [hC, hP, hT, if_pos hid]
  · rw [receive_rreq]
    simp only [hC, hP, hT, if_neg hid]
    exact rreq_forward_calls w.devices fuel c p t (List.getElem?_eq_some.mp hC).1
      (List.getElem?_eq_some.mp hP).1 C.neighbors hnb
      (w.print (.received_rreq C.device_id P.device_id)) (fun _ => [])
      ⟨tabled_refl w.devices, fun _ _ he => absurd he (List.not_mem_nil _)⟩
  · rw [List.mem_filter]
    constructor
    · rintro ⟨hmem, htest⟩
      refine ⟨hmem, ?_⟩
      have hlt := hnb n hmem
      refine ⟨w.devices[n], List.getElem?_eq_getElem hlt, ?_⟩
      simpa [forward_test, hC, hP, List.getElem?_eq_getElem hlt] using htest
    · rintro ⟨hmem, N, hN, hne, hcc⟩
      refine ⟨hmem, ?_⟩
      simp [forward_test, hC, hP, hN, hne, hcc]

/-- One step of the flood at device B of the chain A - B - C - D, reached from A. -/
theorem receive_rreq_step_witness :
    ((create_device "B" 10 0 10).device_id = (create_device "D" 30 0 10).device_id →
      receive_rreq (2 + 1) (initial_world chain4) 1 0 3 =
        send_rrep (((initial_world chain4).print (.received_rreq "B" "A")).print
          (.found_route "B" "D")) 1 0) ∧
    ((create_device "B" 10 0 10).device_id ≠ (create_device "D" 30 0 10).device_id →
      receive_rreq (2 + 1) (initial_world chain4) 1 0 3 =
        forward_calls 2 1 3 ([0, 2].filter (forward_test (initial_world chain4).devices 1 0))
          ((initial_world chain4).print (.received_rreq "B" "A"))) ∧
    (∀ n : Nat, n ∈ [0, 2].filter (forward_test (initial_world chain4).devices 1 0) ↔
      n ∈ [0, 2] ∧ ∃ N, (initial_world chain4).devices[n]? = some N ∧ N.device_id ≠ "A" ∧
        can_communicate { create_device "B" 10 0 10 with neighbors := [0, 2] } N = true) :=
  receive_rreq_step 2 (initial_world chain4) 1 0 3
    { create_device "B" 10 0 10 with neighbors := [0, 2] }
    { create_device "A" 0 0 10 with neighbors := [1] }
    { create_device "D" 30 0 10 with neighbors := [2] }
    (by decide!) (by decide!) (by decide!) (by decide!)

/-! ## Where discovery writes -/

theorem device_index_of_id (devices : List Device)
    (hids : (devices.map Device.device_id).Nodup) (a b : Nat) (A B : Device)
    (ha : devices[a]? = some A) (hb : devices[b]? = some B)
    (h : A.device_id = B.device_id) : a = b := by
  have hlt : a < (devices.map Device.device_id).length := by
    rw [List.length_map]
    exact (List.getElem?_eq_some.mp ha).1
  refine List.getElem?_inj hlt hids ?_
  rw [List.getElem?_map, List.getElem?_map, ha, hb]
  simp [h]

/-- C15: for a topology with pairwise distinct ids and empty routing tables, and
a discovery `send_rreq(S, D)` that returns, `get_route(S, D)` afterwards returns
1 exactly when D is in the neighbour list of S and in the range of S, and 0
otherwise. More generally a device X has a routing entry afterwards only if D is
in the neighbour list of X and in the range of X, and every entry is for D. -/
theorem source_route_iff_direct_neighbor (fuel : Nat) (devices : List Device)
    (out : List Event) (s t : Nat) (S D : Device)
    (hS : devices[s]? = some S) (hD : devices[t]? = some D)
    (hids : (devices.map Device.device_id).Nodup)
    (hempty : ∀ d ∈ devices, d.routing_table = []) (w1 : World)
    (hrun : send_rreq fuel ⟨devices, out⟩ s t = .done w1) :
    (∃ w2 r, get_route w1 s t = .done (w2, r) ∧ (r = 1 ∨ r = 0) ∧
      (r = 1 ↔ t ∈ S.neighbors ∧ can_communicate S D = true)) ∧
    (∀ (k : Nat) (X X1 : Device), devices[k]? = some X → w1.devices[k]? = some X1 →
      X1.routing_table ≠ [] → t ∈ X.neighbors ∧ can_communicate X D = true) ∧
    (∀ (k : Nat) (X1 : Device), w1.devices[k]? = some X1 →
      ∀ e ∈ X1.routing_table, e.destination_id = D.device_id) := by
  rcases flooded_send devices t
      (fun k c => ∃ K C, devices[k]? = some K ∧ devices[c]? = some C ∧ c ∈ K.neighbors ∧
        can_communicate K C = true)
      (fun c n C N hC hN hmem hcc => ⟨C, N, hC, hN, hmem, hcc⟩)
      fuel s S D hS hD ⟨devices, out⟩ (fun _ => []) w1
      ⟨tabled_refl devices, fun _ _ he => absurd he (List.not_mem_nil _)⟩ hrun with
    ⟨f1, hf1, _, hdirect⟩
  have hwrote : ∀ (k : Nat) (X : Device) (e : RouteEntry), devices[k]? = some X → e ∈ f1 k →
      e.destination_id = D.device_id ∧ t ∈ X.neighbors ∧ can_communicate X D = true := by
    intro k X e hX he
    rcases hf1.2 k e he with ⟨c, C, T, K, hC, hT, hK, hCT, ⟨K1, C1, hK1, hC1, hmem, hcc⟩, heq⟩
    rw [hD, Option.some.injEq] at hT
    subst hT
    have hct : c = t := device_index_of_id devices hids c t C D hC hD hCT
    subst hct
    rw [hX, Option.some.injEq] at hK1
    rw [hD, Option.some.injEq] at hC1
    subst hK1 hC1
    exact ⟨by rw [heq], hmem, hcc⟩
  have htable : ∀ (k : Nat) (X X1 : Device), devices[k]? = some X → w1.devices[k]? = some X1 →
      X1.routing_table = f1 k := by
    intro k X X1 hX hX1
    rcases tabled_get devices w1.devices f1 hf1.1 k X1 hX1 with ⟨X0, hX0, hX1eq⟩
    rw [hX, Option.some.injEq] at hX0
    subst hX0
    rw [hX1eq]
    show X.routing_table ++ f1 k = f1 k
    rw [hempty X (List.getElem?_mem hX), List.nil_append]
  have hs1 : w1.devices[s]? = some (add_routes (f1 s) S) := by rw [hf1.1 s, hS]; rfl
  have ht1 : w1.devices[t]? = some (add_routes (f1 t) D) := by rw [hf1.1 t, hD]; rfl
  have hstab : (add_routes (f1 s) S).routing_table = f1 s := htable s S _ hS hs1
  refine ⟨?_, ?_, ?_⟩
  · simp only [get_route, hs1, ht1]
    rw [hstab]
    show ∃ w2 r, (match get_route_scan D.device_id (f1 s) with
      | some e => Run.done (w1.print (.route_found S.device_id e.next_hop e.hop_count), (1 : Int))
      | none => Run.done (w1.print (.no_route_to D.device_id), 0)) = .done (w2, r) ∧ _
    cases hscan : get_route_scan D.device_id (f1 s) with
    | none =>
      refine ⟨_, _, rfl, Or.inr rfl, ?_⟩
      constructor
      · intro h; exact absurd h (by decide)
      · rintro ⟨hmem, hcc⟩
        have hne := hdirect hmem hcc
        rcases List.exists_mem_of_ne_nil _ hne with ⟨e, he⟩
        exact absurd (hwrote s S e hS he).1
          ((get_route_scan_none D.device_id (f1 s)).mp hscan e he)
    | some e =>
      refine ⟨_, _, rfl, Or.inl rfl, ?_⟩
      rcases get_route_scan_some D.device_id (f1 s) e hscan with ⟨i, hi, _, _⟩
      exact ⟨fun _ => (hwrote s S e hS (List.getElem?_mem hi)).2, fun _ => rfl⟩
  · intro k X X1 hX hX1 hne
    rw [htable k X X1 hX hX1] at hne
    rcases List.exists_mem_of_ne_nil _ hne with ⟨e, he⟩
    exact (hwrote k X e hX he).2
  · intro k X1 hX1 e he
    rcases tabled_get devices w1.devices f1 hf1.1 k X1 hX1 with ⟨X0, hX0, _⟩
    rw [htable k X0 X1 hX0 hX1] at he
    exact (hwrote k X0 e hX0 he).1

/-- Discovery from S to its direct neighbour D on the pair S, D. -/
theorem source_route_iff_direct_neighbor_witness :
    ∃ w1, send_rreq (0 + 1) ⟨setup_neighbors pair, []⟩ 0 1 = .done w1 ∧
      ((∃ w2 r, get_route w1 0 1 = .done (w2, r) ∧ (r = 1 ∨ r = 0) ∧
        (r = 1 ↔ 1 ∈ [1] ∧ can_communicate { create_device "S" 0 0 10 with neighbors := [1] }
          { create_device "D" 1 0 10 with neighbors := [0] } = true)) ∧
      (∀ (k : Nat) (X X1 : Device), (setup_neighbors pair)[k]? = some X →
        w1.devices[k]? = some X1 → X1.routing_table ≠ [] →
        1 ∈ X.neighbors ∧
          can_communicate X { create_device "D" 1 0 10 with neighbors := [0] } = true) ∧
      (∀ (k : Nat) (X1 : Device), w1.devices[k]? = some X1 →
        ∀ e ∈ X1.routing_table, e.destination_id = "D")) :=
  have h := send_rreq_direct 0 ⟨setup_neighbors pair, []⟩ 0 1
    { create_device "S" 0 0 10 with neighbors := [1] }
    { create_device "D" 1 0 10 with neighbors := [0] }
    (by decide!) (by decide!) rfl (by decide!) (by decide)
  ⟨_, h, source_route_iff_direct_neighbor (0 + 1) (setup_neighbors pair) [] 0 1
    { create_device "S" 0 0 10 with neighbors := [1] }
    { create_device "D" 1 0 10 with neighbors := [0] }
    (by decide!) (by decide!) (by decide!) (by decide!) _ h⟩

/-! ## Discovery on a chain of any length -/

/-- In a chain of `m + 2` devices the request that device `i + 1` receives from
device `i` travels to the last device, whose reply writes one entry at device
`m`; the call returns within depth `m - i + 1`. -/
theorem chain_receive (devices : List Device) (m : Nat) (X Dn : Device)
    (hX : devices[m]? = some X) (hDn : devices[m + 1]? = some Dn)
    (hids : (devices.map Device.device_id).Nodup)
    (hnb : ∀ i, i < m + 2 →
      (devices[i]?).map Device.neighbors = some (chain_neighbors (m + 2) i))
    (hrange : ∀ i, i + 1 < m + 2 → in_range_of devices i (i + 1) = true)
    (hXempty : X.routing_table = []) :
    ∀ (j i : Nat) (out : List Event), i + j = m →
      ∃ out1, receive_rreq (j + 1) ⟨devices, out⟩ (i + 1) i (m + 1) =
        .done ⟨devices.set m { X with routing_table :=
          [{ destination_id := Dn.device_id, next_hop := X.device_id, hop_count := 1 }] },
          out1⟩ := by
  intro j
  induction j with
  | zero =>
    intro i out hij
    have him : i = m := by omega
    subst him
    rw [receive_rreq]
    simp only [hX, hDn, if_true, send_rrep, World.print]
    rw [update_routing_table_appends devices _ i Dn.device_id X hX
      (by simp [Device.num_routes, hXempty, MAX_DEVICES])]
    simp [hXempty]
  | succ j ih =>
    intro i out hij
    have hC : ∃ C, devices[i + 1]? = some C ∧ C.neighbors = [i, i + 2] := by
      have h := hnb (i + 1) (by omega)
      cases hc : devices[i + 1]? with
      | none => rw [hc] at h; simp at h
      | some C =>
        rw [hc] at h
        simp only [Option.map_some', Option.some.injEq] at h
        refine ⟨C, rfl, ?_⟩
        rw [h]
        simp only [chain_neighbors]
        have h2 : i + 1 + 1 < m + 2 := by omega
        simp [h2]
    rcases hC with ⟨C, hC, hCnb⟩
    have hr1 := hrange i (by omega)
    have hr2 := hrange (i + 1) (by omega)
    cases hP : devices[i]? with
    | none => simp [in_range_of, hP] at hr1
    | some P =>
      cases hN : devices[i + 2]? with
      | none => simp [in_range_of, hC, hN] at hr2
      | some N =>
        have hcc : can_communicate C N = true := by
          simpa [in_range_of, hC, hN] using hr2
        have hCD : C.device_id ≠ Dn.device_id := fun h =>
          absurd (device_index_of_id devices hids (i + 1) (m + 1) C Dn hC hDn h) (by omega)
        have hNP : N.device_id ≠ P.device_id := fun h =>
          absurd (device_index_of_id devices hids (i + 2) i N P hN hP h) (by omega)
        rw [receive_rreq]
        simp only [hC, hP, hDn, if_neg hCD, hCnb]
        rw [rreq_forward_cons (receive_rreq (j + 1)) (i + 1) i (m + 1) i [i + 2] _ C P P hC hP hP]
        have ht1 : forward_test devices (i + 1) i i = false := by
          simp [forward_test, hC, hP]
        have ht2 : forward_test devices (i + 1) i (i + 2) = true := by
          simp [forward_test, hC, hP, hN, hNP, hcc]
        simp only [World.print, ht1]
        rw [if_neg (by simp)]
        rw [rreq_forward_cons (receive_rreq (j + 1)) (i + 1) i (m + 1) (i + 2) [] _ C N P hC hN hP]
        simp only [ht2, if_true]
        rcases ih (i + 1) (out ++ [Event.received_rreq C.device_id P.device_id]) (by omega) with
          ⟨out1, hrec⟩
        rw [hrec]
        exact ⟨out1, rfl⟩

/-- C16: on a chain of `n >= 2` devices with distinct ids, where the neighbour
list of device `i` holds its chain neighbours `i - 1` and `i + 1` that exist,
each device has its successor in range and all routing tables are empty,
`send_rreq(device 0, device n-1)` returns for every call depth of at least
`n - 1`; afterwards device `n - 2` holds exactly one entry, (destination = id of
device `n - 1`, next hop = id of device `n - 2`, hop count 1), and every other
device is unchanged, its routing table still empty. -/
theorem chain_discovery_general (n : Nat) (devices : List Device) (out : List Event)
    (hn : 2 ≤ n) (hlen : devices.length = n)
    (hids : (devices.map Device.device_id).Nodup)
    (hnb : ∀ i, i < n → (devices[i]?).map Device.neighbors = some (chain_neighbors n i))
    (hrange : ∀ i, i + 1 < n → in_range_of devices i (i + 1) = true)
    (hempty : ∀ d ∈ devices, d.routing_table = [])
    (fuel : Nat) (hfuel : n - 1 ≤ fuel) :
    ∃ w1 X Dn, devices[n - 2]? = some X ∧ devices[n - 1]? = some Dn ∧
      send_rreq fuel ⟨devices, out⟩ 0 (n - 1) = .done w1 ∧
      w1.devices = devices.set (n - 2) { X with routing_table :=
        [{ destination_id := Dn.device_id, next_hop := X.device_id, hop_count := 1 }] } ∧
      (∃ X1, w1.devices[n - 2]? = some X1 ∧ X1.num_routes = 1 ∧
        X1.routing_table =
          [{ destination_id := Dn.device_id, next_hop := X.device_id, hop_count := 1 }]) ∧
      (∀ (k : Nat) (X1 : Device), k ≠ n - 2 → w1.devices[k]? = some X1 →
        devices[k]? = some X1 ∧ X1.routing_table = []) := by
  obtain ⟨m, rfl⟩ : ∃ m, n = m + 2 := ⟨n - 2, by omega⟩
  obtain ⟨k, rfl⟩ : ∃ k, fuel = (m + 1) + k := ⟨fuel - (m + 1), by omega⟩
  simp only [show m + 2 - 1 = m + 1 from rfl, show m + 2 - 2 = m from rfl]
  have hmlt : m < devices.length := by omega
  have hX : devices[m]? = some devices[m] := List.getElem?_eq_getElem hmlt
  have hDn : devices[m + 1]? = some devices[m + 1] := List.getElem?_eq_getElem (by omega)
  have hS : devices[0]? = some devices[0] := List.getElem?_eq_getElem (by omega)
  have hN : devices[1]? = some devices[1] := List.getElem?_eq_getElem (by omega)
  have hSnb : (devices[0]).neighbors = [1] := by
    have h := hnb 0 (by omega)
    rw [hS] at h
    simp only [Option.map_some', Option.some.injEq] at h
    rw [h]
    simp [chain_neighbors]
  have hcc : can_communicate devices[0] devices[1] = true := by
    have h := hrange 0 (by omega)
    simpa [in_range_of, hS, hN] using h
  rcases chain_receive devices m devices[m] devices[m + 1] hX hDn hids hnb hrange
      (hempty _ (List.getElem?_mem hX)) m 0
      (out ++ [Event.sending_rreq (devices[0]).device_id (devices[m + 1]).device_id] ++
        [Event.rreq_to_neighbor (devices[0]).device_id (devices[1]).device_id])
      (by omega) with ⟨out1, hrec⟩
  have hbase : send_rreq (m + 1) ⟨devices, out⟩ 0 (m + 1) =
      .done ⟨devices.set m { devices[m] with routing_table :=
        [{ destination_id := (devices[m + 1]).device_id,
           next_hop := (devices[m]).device_id, hop_count := 1 }] }, out1⟩ := by
    simp only [send_rreq, hS, hDn, hSnb, send_rreq_loop, hN, hcc, if_true, World.print]
    simp only [Nat.zero_add] at hrec
    rw [hrec]
  refine ⟨⟨devices.set m { devices[m] with routing_table :=
        [{ destination_id := (devices[m + 1]).device_id,
           next_hop := (devices[m]).device_id, hop_count := 1 }] }, out1⟩,
    devices[m], devices[m + 1], hX, hDn, ?_, rfl, ?_, ?_⟩
  · rw [send_rreq_fuel_mono (m + 1) k _ _ _ (by rw [hbase]; simp), hbase]
  · exact ⟨_, List.getElem?_set_self hmlt, rfl, rfl⟩
  · intro j X1 hj hX1
    rw [List.getElem?_set_ne (Ne.symm hj)] at hX1
    exact ⟨hX1, hempty X1 (List.getElem?_mem hX1)⟩

/-- The chain A - B - C - D, with call depth 3. -/
theorem chain_discovery_general_witness :
    ∃ w1 X Dn, (setup_neighbors chain4)[4 - 2]? = some X ∧
      (setup_neighbors chain4)[4 - 1]? = some Dn ∧
      send_rreq 3 ⟨setup_neighbors chain4, []⟩ 0 (4 - 1) = .done w1 ∧
      w1.devices = (setup_neighbors chain4).set (4 - 2) { X with routing_table :=
        [{ destination_id := Dn.device_id, next_hop := X.device_id, hop_count := 1 }] } ∧
      (∃ X1, w1.devices[4 - 2]? = some X1 ∧ X1.num_routes = 1 ∧
        X1.routing_table =
          [{ destination_id := Dn.device_id, next_hop := X.device_id, hop_count := 1 }]) ∧
      (∀ (k : Nat) (X1 : Device), k ≠ 4 - 2 → w1.devices[k]? = some X1 →
        (setup_neighbors chain4)[k]? = some X1 ∧ X1.routing_table = []) :=
  chain_discovery_general 4 (setup_neighbors chain4) [] (by decide) (by decide!) (by decide!)
    (by decide!)
    (fun i hi => by
      have h3 : i < 3 := by omega
      interval_cases i <;> decide!)
    (by decide!) 3 (by decide)

/-! ## Bounds of the neighbour arrays -/

theorem setup_step_checked_eq (i j : Nat) (ds : List Device)
    (h : ∀ di, ds[i]? = some di → di.num_neighbors < MAX_NEIGHBORS) :
    setup_step_checked i j ds = .done (setup_step i j ds) := by
  unfold setup_step_checked setup_step
  cases hi : ds[i]? with
  | none => rfl
  | some di =>
    cases hj : ds[j]? with
    | none => rfl
    | some dj =>
      simp only
      by_cases hc : i ≠ j ∧ can_communicate di dj = true
      · rw [if_pos hc, if_pos hc, if_pos (h di hi)]
      · rw [if_neg hc, if_neg hc]

/-- A row of the setup makes at most one write for each index it visits: when
the list it starts from leaves room for that many, no write is out of bounds. -/
theorem setup_row_checked_eq (ds0 : List Device) (i : Nat) (js : List Nat) :
    ∀ (ds : List Device) (f : Nat → List Nat), Linked ds0 f ds →
      (∀ di0, ds0[i]? = some di0 →
        (di0.neighbors ++ f i).length + js.length ≤ MAX_NEIGHBORS) →
      js.foldl (fun (r : Run (List Device)) j => r.bind (setup_step_checked i j))
          (Run.done ds) =
        Run.done (js.foldl (fun ds j => setup_step i j ds) ds) := by
  induction js with
  | nil => intro ds f _ _; rfl
  | cons j js ih =>
    intro ds f hl hroom
    rw [List.foldl_cons, List.foldl_cons]
    have hstep : setup_step_checked i j ds = .done (setup_step i j ds) := by
      apply setup_step_checked_eq
      intro di hdi
      have h1 := hl i
      rw [hdi] at h1
      cases h0 : ds0[i]? with
      | none => rw [h0] at h1; simp at h1
      | some di0 =>
        rw [h0] at h1
        simp only [Option.map_some', Option.some.injEq] at h1
        have h2 := hroom di0 h0
        rw [h1]
        simp only [Device.num_neighbors, add_neighbors, List.length_cons] at h2 ⊢
        omega
    show List.foldl _ (setup_step_checked i j ds) js = _
    rw [hstep]
    refine ih _ _ (linked_step ds0 ds f hl i j) ?_
    intro di0 h0
    have h2 := hroom di0 h0
    simp only [List.length_cons, List.length_append] at h2
    show (di0.neighbors ++
      (if i = i ∧ in_range_of ds0 i j = true then f i ++ [j] else f i)).length + js.length
        ≤ MAX_NEIGHBORS
    by_cases hr : in_range_of ds0 i j = true
    · rw [if_pos ⟨rfl, hr⟩]
      simp only [List.length_append, List.length_cons, List.length_nil]
      omega
    · rw [if_neg (fun hc => hr hc.2)]
      simp only [List.length_append]
      omega

/-- The rows of the setup, one after the other, with checked writes: no write is
out of bounds when every row starts from an empty neighbour list and visits at
most `MAX_NEIGHBORS` indices. -/
theorem setup_rows_checked_eq (ds0 : List Device) (n : Nat) (hn : n ≤ MAX_NEIGHBORS)
    (h0 : ∀ d ∈ ds0, d.num_neighbors = 0) (is : List Nat) :
    ∀ (ds : List Device) (f : Nat → List Nat), is.Nodup → Linked ds0 f ds →
      (∀ i ∈ is, f i = []) →
      is.foldl (fun (r : Run (List Device)) i => r.bind (setup_row_checked n i)) (Run.done ds) =
        Run.done (is.foldl (fun ds i => setup_row n i ds) ds) := by
  induction is with
  | nil => intro ds f _ _ _; rfl
  | cons i is ih =>
    intro ds f hnd hl hf
    rw [List.foldl_cons, List.foldl_cons]
    rw [List.nodup_cons] at hnd
    have hrow : setup_row_checked n i ds = .done (setup_row n i ds) := by
      refine setup_row_checked_eq ds0 i (List.range n) ds f hl ?_
      intro di0 hdi0
      have hz := h0 di0 (List.getElem?_mem hdi0)
      rw [hf i (List.mem_cons_self _ _)]
      simp only [Device.num_neighbors] at hz
      simp only [List.append_nil, hz, List.length_range]
      omega
    show List.foldl _ (setup_row_checked n i ds) is = _
    rw [hrow]
    refine ih _ _ hnd.2 (linked_row ds0 i (List.range n) ds f hl) ?_
    intro k hk
    have hki : k ≠ i := fun h => hnd.1 (h ▸ hk)
    simp only [if_neg hki]
    exact hf k (List.mem_cons_of_mem _ hk)

theorem length_in_range_filter (devices : List Device) (k : Nat) (hk : k < devices.length) :
    ((List.range devices.length).filter (in_range_of devices k)).length
      ≤ devices.length - 1 := by
  have hlt : ((List.range devices.length).filter (in_range_of devices k)).length
      < (List.range devices.length).length := by
    rw [List.length_filter_lt_length_iff_exists]
    refine ⟨k, List.mem_range.mpr hk, ?_⟩
    simp [in_range_of, List.getElem?_eq_getElem hk]
  rw [List.length_range] at hlt
  omega

/-- C17: for at most `MAX_DEVICES` devices that start with no neighbours, the
neighbour setup of `main` makes no write at an index that is not below
`MAX_NEIGHBORS`: the setup with checked writes finishes with the result of the
setup loop, and afterwards every device has at most `n - 1` neighbours, fewer
than `MAX_NEIGHBORS`. -/
theorem setup_neighbors_in_bounds (devices : List Device)
    (h0 : ∀ d ∈ devices, d.num_neighbors = 0) (hn : devices.length ≤ MAX_DEVICES) :
    setup_neighbors_checked devices = .done (setup_neighbors devices) ∧
    (setup_neighbors devices).length = devices.length ∧
    ∀ d ∈ setup_neighbors devices,
      d.num_neighbors ≤ devices.length - 1 ∧ 1 ≤ devices.length ∧
        d.num_neighbors < MAX_NEIGHBORS := by
  refine ⟨?_, ?_, ?_⟩
  · exact setup_rows_checked_eq devices devices.length hn h0 (List.range devices.length)
      devices (fun _ => []) (List.nodup_range _) (linked_refl devices) (fun _ _ => rfl)
  · rcases Nat.lt_trichotomy (setup_neighbors devices).length devices.length with h | h | h
    · have h1 := setup_neighbors_linked devices (setup_neighbors devices).length
      rw [List.getElem?_eq_none (Nat.le_refl _), List.getElem?_eq_getElem h] at h1
      simp at h1
    · exact h
    · have h1 := setup_neighbors_linked devices devices.length
      rw [List.getElem?_eq_none (Nat.le_refl _), List.getElem?_eq_getElem h] at h1
      simp at h1
  · intro d hd
    rcases List.mem_iff_getElem?.mp hd with ⟨k, hk⟩
    have h1 := setup_neighbors_linked devices k
    rw [hk] at h1
    cases hd0 : devices[k]? with
    | none => rw [hd0] at h1; simp at h1
    | some d0 =>
      rw [hd0] at h1
      simp only [Option.map_some', Option.some.injEq] at h1
      have hklt : k < devices.length := (List.getElem?_eq_some.mp hd0).1
      have hz := h0 d0 (List.getElem?_mem hd0)
      have hlen := length_in_range_filter devices k hklt
      simp only [Device.num_neighbors] at hz
      have hnum : d.num_neighbors ≤ devices.length - 1 := by
        rw [h1]
        simp only [Device.num_neighbors, add_neighbors, List.length_append, hz]
        omega
      refine ⟨hnum, by omega, ?_⟩
      simp only [MAX_DEVICES] at hn
      simp only [MAX_NEIGHBORS]
      omega

/-- The bounds on the scenario of four devices. -/
theorem setup_neighbors_in_bounds_witness :
    setup_neighbors_checked scenario = .done (setup_neighbors scenario) ∧
    (setup_neighbors scenario).length = scenario.length ∧
    ∀ d ∈ setup_neighbors scenario,
      d.num_neighbors ≤ scenario.length - 1 ∧ 1 ≤ scenario.length ∧
        d.num_neighbors < MAX_NEIGHBORS :=
  setup_neighbors_in_bounds scenario (by decide) (by decide)

end Aodv
